import Mathlib

/-!
Verification of the ffq accession-resolution library.

This file gives a shallow embedding, in Lean 4, of the parts of `ffq`
(`ffq/ffq.py`, `ffq/utils.py`) relevant to the resolution engine:
the accession classifier, the ENA/NCBI payload parsers, the file-manifest
extraction, the range expansion, and the depth-bounded resolvers
`ffq_run` / `ffq_sample` / `ffq_experiment` / `ffq_study` / `ffq_gse` /
`ffq_gsm` / `ffq_doi`.

Modelling conventions:
 * Python strings are Lean `String`s; character-level algorithms work on
   `List Char` (the `data` of a `String`).
 * Python dynamic values (the JSON-like records the resolvers build) are
   modelled by the inductive type `Val`; Python dicts are association
   lists in insertion order, with `setKey` giving `dict.update` /
   assignment semantics.
 * Python exceptions (including `sys.exit`) are modelled by `Except PyErr`;
   the monad `M` additionally threads the list of registry requests made,
   so that claims about which network calls are issued can be stated.
 * The network registries are an explicit environment `Env`: each endpoint
   is a total function from the request parameters to a parsed response
   document, together with the HTTP status and body-emptiness information
   that the code inspects.  The BeautifulSoup documents returned by the
   ENA XML endpoint are modelled by the structure `Soup`, whose fields are
   exactly the queries the parsers perform on the document (texts of
   `PRIMARY_ID` elements in document order, texts of `ID` elements, the
   first `TITLE` text, and so on).
 * Regular-expression matching is modelled by explicit executable
   functions implementing the semantics of the concrete patterns the code
   uses (`(SRR.+)|(ERR.+)|(DRR.+)` under `re.search` as used by
   BeautifulSoup text filters, `^.*?(?=[0-9])` under `re.match`, and the
   `findall` scans for the `GSE`/`SRP`/`SRR` capture patterns).
-/

/-- Python exception outcomes.  `sysExit n` models `sys.exit(n)` / `exit(n)`;
the other constructors model the built-in exception types the embedded code
can raise; `exc` models `raise Exception(...)` (message elided). -/
inductive PyErr where
  | sysExit : Nat → PyErr
  | indexError : PyErr
  | attributeError : PyErr
  | typeError : PyErr
  | keyError : PyErr
  | valueError : PyErr
  | assertionError : PyErr
  | exc : String → PyErr
deriving DecidableEq, Repr

/-- Dynamic (JSON-like) Python values built by the resolvers.  Dicts are
association lists in insertion order. -/
inductive Val where
  | str : String → Val
  | nat : Nat → Val
  | bool : Bool → Val
  | pynone : Val
  | list : List Val → Val
  | dict : List (String × Val) → Val

/-- Dict assignment `d[k] = v` / `d.update({k: v})`: replaces the value in
place if the key is present (keeping its position), else appends. -/
def setKey : List (String × Val) → String → Val → List (String × Val)
  | [], k, v => [(k, v)]
  | (k', v') :: rest, k, v =>
    if k' = k then (k, v) :: rest else (k', v') :: setKey rest k v

/-- First-occurrence lookup in an association list (dicts built with
`setKey` have unique keys, so this is Python dict lookup). -/
def lookupKey : List (String × Val) → String → Option Val
  | [], _ => none
  | (k', v') :: rest, k => if k' = k then some v' else lookupKey rest k

/-- Build a dict from a list of pairs (Python dict comprehension:
later duplicate keys overwrite earlier ones). -/
def dictOf (pairs : List (String × Val)) : List (String × Val) :=
  pairs.foldl (fun d kv => setKey d kv.1 kv.2) []

/-- Key lookup on a `Val` (`none` when the value is not a dict or the key
is absent). -/
def Val.get? : Val → String → Option Val
  | .dict d, k => lookupKey d k
  | _, _ => none

/-- Whether a `Val` is a Python dict. -/
def Val.isDict : Val → Bool
  | .dict _ => true
  | _ => false

/-- Length of a `Val` that is a Python list. -/
def Val.listLen : Val → Option Nat
  | .list l => some l.length
  | _ => none

/-! ## Character and string helpers (Python semantics) -/

/-- `str.upper()` (ASCII case, which is all the accession alphabet uses). -/
def pyUpper (s : String) : String := String.mk (s.data.map Char.toUpper)

/-- `str.lower()`. -/
def pyLower (s : String) : String := String.mk (s.data.map Char.toLower)

/-- `str.strip()` (whitespace from both ends). -/
def pyStrip (s : String) : String :=
  String.mk (((s.data.dropWhile Char.isWhitespace).reverse.dropWhile
    Char.isWhitespace).reverse)

/-- `sep.join(parts)`. -/
def joinSep (sep : String) : List String → String
  | [] => ""
  | [x] => x
  | x :: xs => x ++ sep ++ joinSep sep xs

/-- Digit value of a character, as used by `int()` on a digit string. -/
def digitVal (c : Char) : Nat := c.toNat - 48

/-- The decimal digit character for `d` (`str()` of a one-digit number). -/
def digitChar (d : Nat) : Char :=
  match d with
  | 0 => '0' | 1 => '1' | 2 => '2' | 3 => '3' | 4 => '4'
  | 5 => '5' | 6 => '6' | 7 => '7' | 8 => '8' | _ => '9'

/-- `str(n)` for a natural number, as a character list. -/
def natReprChars (n : Nat) : List Char :=
  if _h : n < 10 then [digitChar n]
  else natReprChars (n / 10) ++ [digitChar (n % 10)]
decreasing_by exact Nat.div_lt_self (by omega) (by omega)

/-- Value of a digit string (the loop inside `int()` on a valid literal). -/
def parseDigits (l : List Char) : Nat :=
  l.foldl (fun a c => a * 10 + digitVal c) 0

/-- `int(s)` for a (non-negative, unsigned, unpadded-by-whitespace) literal:
`some` of the value when `s` is a non-empty digit string, else `none`
(which callers turn into `ValueError`). -/
def pyIntChars (l : List Char) : Option Nat :=
  if l ≠ [] ∧ l.all Char.isDigit then some (parseDigits l) else none

/-- `str.zfill`-style left zero-padding to width `w` (never truncates). -/
def zfill (l : List Char) (w : Nat) : List Char :=
  List.replicate (w - l.length) '0' ++ l

/-- `text.split(sep)` for a one-character separator. -/
def splitOnChar (sep : Char) : List Char → List (List Char)
  | [] => [[]]
  | c :: rest =>
    let r := splitOnChar sep rest
    if c = sep then [] :: r
    else
      match r with
      | h :: t => (c :: h) :: t
      | [] => [[c]]

/-- `text.split(sep)` on `String`s (one-character separator). -/
def splitStr (sep : Char) (s : String) : List String :=
  (splitOnChar sep s.data).map String.mk

/-- Substring containment, Python's `needle in hay`. -/
def containsSub (needle : List Char) : List Char → Bool
  | [] => needle.isEmpty
  | c :: rest => needle.isPrefixOf (c :: rest) || containsSub needle rest

/-- `needle in hay` on `String`s. -/
def strIn (needle hay : String) : Bool := containsSub needle.data hay.data

/-- Last component of `url.split(sep)` (a `split` result is never empty). -/
def lastSplit (sep : Char) (s : String) : String :=
  match (splitOnChar sep s.data).reverse with
  | h :: _ => String.mk h
  | [] => ""

/-! ## Regex models -/

/-- `re.search` semantics of an alternation of patterns `TAG.+` (as used by
the BeautifulSoup `text=` filters built from `RUN_PARSER` and friends):
true iff at some position of the string one of the three-letter tags
occurs followed by at least one further character. -/
def tagSearch (tags : List (List Char)) : List Char → Bool
  | [] => false
  | c :: rest =>
    tags.any (fun t => t.isPrefixOf (c :: rest) && decide (t.length < (c :: rest).length))
      || tagSearch tags rest

/-- `RUN_PARSER = (SRR.+)|(ERR.+)|(DRR.+)` under `re.search`. -/
def runMatches (s : String) : Bool :=
  tagSearch [['S','R','R'], ['E','R','R'], ['D','R','R']] s.data

/-- `EXPERIMENT_PARSER = (SRX.+)|(ERX.+)|(DRX.+)` under `re.search`. -/
def experimentMatches (s : String) : Bool :=
  tagSearch [['S','R','X'], ['E','R','X'], ['D','R','X']] s.data

/-- `PROJECT_PARSER = (SRP.+)|(ERP.+)|(DRP.+)` under `re.search`. -/
def projectMatches (s : String) : Bool :=
  tagSearch [['S','R','P'], ['E','R','P'], ['D','R','P']] s.data

/-- `SAMPLE_PARSER = (SRS.+)|(ERS.+)|(DRS.+)` under `re.search`. -/
def sampleMatches (s : String) : Bool :=
  tagSearch [['S','R','S'], ['E','R','S'], ['D','R','S']] s.data

/-- The capture of the first match of `re.findall(r"(\D+).+", accession)`:
the regex matches at the earliest position whose character is a non-digit;
the greedy `\D+` takes the maximal non-digit run from there, backtracking
by one character when nothing would remain for `.+`.  `none` models an
empty `findall` result (so `[0]` raises `IndexError`). -/
def findPrefixCapture : List Char → Option (List Char)
  | [] => none
  | c :: rest =>
    if c.isDigit then findPrefixCapture rest
    else
      let run := (c :: rest).takeWhile (fun x => !x.isDigit)
      if run.length < (c :: rest).length then some run
      else if 2 ≤ run.length then some (run.dropLast)
      else findPrefixCapture rest

/-- `DOI_PARSER = ^10.\d{4,9}\/[-._;()\/:A-Z0-9]+` under `re.match`
(the `.` after `10` is an unescaped any-character). -/
def doiBodyChar (c : Char) : Bool :=
  c.isDigit || c.isUpper || c = '-' || c = '.' || c = '_' || c = ';' ||
    c = '(' || c = ')' || c = '/' || c = ':'

/-- Prefix match of the DOI pattern against `l`. -/
def doiMatch (l : List Char) : Bool :=
  match l with
  | '1' :: '0' :: _ :: rest =>
    let ds := rest.takeWhile Char.isDigit
    let tail := rest.drop ds.length
    4 ≤ ds.length && ds.length ≤ 9 &&
      (match tail with
       | '/' :: body => !(body.takeWhile doiBodyChar).isEmpty
       | _ => false)
  | _ => false

/-- One `findall` scan for the capture patterns
`pre1 (capTag [0-9]+) post` (`GSE_PARSER`, `SRP_PARSER`, `SRR_PARSER`):
non-overlapping matches, greedy digit run, capture `capTag ++ digits`. -/
def scanPatAux (pre1 capTag post : List Char) : Nat → List Char → List (List Char)
  | 0, _ => []
  | _, [] => []
  | fuel + 1, l@(_ :: rest) =>
    if (pre1 ++ capTag).isPrefixOf l then
      let afterTag := l.drop (pre1.length + capTag.length)
      let ds := afterTag.takeWhile Char.isDigit
      let afterDs := afterTag.drop ds.length
      if !ds.isEmpty && post.isPrefixOf afterDs then
        (capTag ++ ds) :: scanPatAux pre1 capTag post fuel (afterDs.drop post.length)
      else
        scanPatAux pre1 capTag post fuel rest
    else
      scanPatAux pre1 capTag post fuel rest

/-- Entry point for the `findall` scan; `l.length` steps of fuel always
suffice, since every step consumes at least one character. -/
def scanPat (pre1 capTag post : List Char) (l : List Char) : List (List Char) :=
  scanPatAux pre1 capTag post l.length l

/-- `GSE_PARSER.findall`: pattern `Series\t\tAccession: (GSE[0-9]+)\t`. -/
def gseFindall (s : String) : List String :=
  (scanPat "Series\t\tAccession: ".data "GSE".data "\t".data s.data).map String.mk

/-- `SRP_PARSER.findall`: pattern `Study acc="(SRP[0-9]+)"`. -/
def srpFindall (s : String) : List String :=
  (scanPat "Study acc=\x22".data "SRP".data "\x22".data s.data).map String.mk

/-- `SRR_PARSER.findall`: pattern `Run acc="(SRR[0-9]+)"`. -/
def srrFindall (s : String) : List String :=
  (scanPat "Run acc=\x22".data "SRR".data "\x22".data s.data).map String.mk

/-- `sorted(...)` on a list of strings (Python sorts code-point
lexicographically, which is `String` order). -/
def pySorted (l : List String) : List String :=
  let rec ins (x : String) : List String → List String
    | [] => [x]
    | y :: ys => if x ≤ y then x :: y :: ys else y :: ins x ys
  let rec sortAll : List String → List String
    | [] => []
    | x :: xs => ins x (sortAll xs)
  sortAll l

/-- `list(set(...))` followed by `sorted`: distinct elements in sorted
order (Python set iteration order is unspecified, but both call sites
sort the result). -/
def pySortedSet (l : List String) : List String :=
  pySorted (l.eraseDups)

/-! ## Registry requests, responses, and the effect monad -/

/-- The query parameter sets the code sends to the ENA search endpoint. -/
inductive EnaQuery where
  | studyRuns (accession : String)
  | runStudy (accession : String)
  | runSample (accession : String)
  | titleSearch (title : String)
deriving DecidableEq, Repr

/-- One registry request, as issued by the embedded code. -/
inductive Req where
  | enaXml (accession : String)
  | enaSearch (q : EnaQuery)
  | urlGet (url : String)
  | fetchFasta (accession db : String)
  | ncbiSearch (db term : String)
  | ncbiLink (origin dest id : String)
  | gdsSummary (id : String)
  | sraSummary (ids : String)
  | gdsFetch (ids : List String)
  | gseSearch (accession : String)
  | geoFtp (geo accession : String)
  | crossref (doi : String)
deriving DecidableEq, Repr

/-- The effect monad of the embedding: a Python exception (`Except PyErr`)
plus the trace of registry requests issued so far. -/
def M (α : Type) : Type := List Req → Except PyErr (α × List Req)

instance : Monad M where
  pure a := fun log => .ok (a, log)
  bind x f := fun log =>
    match x log with
    | .ok (a, log') => f a log'
    | .error e => .error e

/-- Raise a Python exception. -/
def throwPy {α : Type} (e : PyErr) : M α := fun _ => .error e

/-- Record one registry request in the trace. -/
def logReq (r : Req) : M Unit := fun log => .ok ((), log ++ [r])

/-- Run an `M` computation with an empty request trace. -/
def M.run {α : Type} (x : M α) : Except PyErr (α × List Req) := x []

/-- Lift a pure `Except` computation into `M`. -/
def liftE {α : Type} : Except PyErr α → M α
  | .ok a => pure a
  | .error e => throwPy e

/-- Monadic `map` over a list (Python list comprehension with effects). -/
def mapML {α β : Type} (f : α → M β) : List α → M (List β)
  | [] => pure []
  | x :: xs => do
    let y ← f x
    let ys ← mapML f xs
    pure (y :: ys)

/-- Monadic left fold (Python `for` loop threading an accumulator). -/
def foldML {α β : Type} (f : β → α → M β) : β → List α → M β
  | b, [] => pure b
  | b, x :: xs => do
    let b' ← f b x
    foldML f b' xs

/-- Whether an `M` computation (run on the empty trace) succeeds. -/
def runsOk {α : Type} (x : M α) : Bool :=
  match x [] with
  | .ok _ => true
  | .error _ => false

/-- The error of an `M` computation (run on the empty trace), if any. -/
def runErr {α : Type} (x : M α) : Option PyErr :=
  match x [] with
  | .ok _ => none
  | .error e => some e

/-- The value of the key `k` in the record an `M` computation resolves to:
`none` when the computation fails, `some r` with `r` the dict lookup
result otherwise. -/
def resolvedKey (x : M Val) (k : String) : Option (Option Val) :=
  match x [] with
  | .ok (v, _) => some (v.get? k)
  | .error _ => none

/-- A raw-text HTTP response (for the TSV-returning endpoints). -/
structure TextResp where
  status : Nat := 200
  text : String := ""
deriving DecidableEq, Repr

/-- A BeautifulSoup document of an ENA XML record, modelled as the tuple
of query results the parsers extract from it: texts of `PRIMARY_ID`
elements in document order, texts of `ID` elements (including the `ID`
children of `XREF_LINK` elements, which is where ENA run records carry
their study/sample cross-references), texts of elements whose tag name
matches `PRIMARY_ID|ID`, the first `TITLE` / `STUDY_TITLE` /
`STUDY_ABSTRACT` / `SCIENTIFIC_NAME` texts, the `TAG`/`VALUE` texts of
`RUN_ATTRIBUTE` / `SAMPLE_ATTRIBUTE` elements (`none` for a missing
child), the `accession` attribute of the first `EXPERIMENT_REF` (outer
`none`: no such element; inner `none`: attribute missing), the parent tag
name and text of the first `INSTRUMENT_MODEL`, and the `DB`/`ID` texts of
`XREF_LINK` elements. -/
structure Soup where
  primaryIds : List String := []
  ids : List String := []
  idLike : List String := []
  title : Option String := none
  studyTitle : Option String := none
  studyAbstract : Option String := none
  scientificName : Option String := none
  runAttributes : List (Option String × Option String) := []
  sampleAttributes : List (Option String × Option String) := []
  experimentRef : Option (Option String) := none
  instrumentModel : Option (String × String) := none
  xrefLinks : List (String × String) := []

/-- An HTTP response carrying a parsed document: status, whether the body
text was empty, and the parsed payload. -/
structure Fetched (α : Type) where
  status : Nat := 200
  empty : Bool := false
  payload : α

/-- One `Alternatives` element of an NCBI SRA-Lite `efetch` response
(`org` and `url` attributes; `.get` returns `None` when absent). -/
structure Alt where
  org : Option String := none
  url : Option String := none
deriving DecidableEq, Repr

/-- The parsed JSON of a GEO `esearch` response. -/
structure GseSearchDoc where
  idlist : List String := []
  querytranslation : String := ""

/-- The summary document `ncbi_summary('gds', id)[id]`: the sample
accessions under `samples`, the `(relationtype, targetobject)` pairs under
`extrelations`, and the `bioproject` / `accession` / `title` fields. -/
structure GdsSummary where
  samples : List String := []
  extrelations : List (String × String) := []
  bioproject : String := ""
  accession : String := ""
  title : String := ""

/-- One GEO FTP `mlsd` directory entry: name, entry type, and the `size`
fact (`none` when absent). -/
structure FtpEntry where
  name : String := ""
  typ : String := ""
  size : Option String := none

/-- The `message` envelope of a CrossRef response (`title` key may be
absent). -/
structure DoiMsg where
  title : Option (List String) := none

/-- The registries, as a total environment: one field per endpoint the
code calls, mapping request parameters to the (parsed) response. -/
structure Env where
  enaXml : String → Fetched Soup := fun _ => { payload := {} }
  enaSearch : EnaQuery → TextResp := fun _ => {}
  urlText : String → TextResp := fun _ => {}
  fetchFasta : String → String → Fetched (List Alt) := fun _ _ => { payload := [] }
  ncbiSearchResp : String → String → Fetched (List String) := fun _ _ => { payload := [] }
  ncbiLinkResp : String → String → String → Fetched (List (List (List String))) :=
    fun _ _ _ => { payload := [] }
  gdsSummaryResp : String → Fetched GdsSummary := fun _ => { payload := {} }
  sraSummaryText : String → Fetched String := fun _ => { payload := "" }
  gdsFetchText : List String → Fetched String := fun _ => { payload := "" }
  gseSearchResp : String → Fetched GseSearchDoc := fun _ => { payload := {} }
  geoFtp : String → String → Option (List FtpEntry) := fun _ _ => none
  crossrefResp : String → Fetched DoiMsg := fun _ => { payload := {} }

/-- `cached_get` on an endpoint whose body is parsed into a document
`α`.  An HTTP error status raises `AttributeError`: the handler calls
`exception.getcode()`, which `requests.HTTPError` does not define.  An
empty body logs `No metadata found` and calls `sys.exit(1)`. -/
def cachedGetDoc {α : Type} (r : Req) (resp : Fetched α) : M α := do
  logReq r
  if 400 ≤ resp.status then throwPy .attributeError
  else if resp.empty then throwPy (.sysExit 1)
  else pure resp.payload

/-- `cached_get` on a raw-text endpoint (same error behaviour; emptiness
is emptiness of the text). -/
def cachedGetText (r : Req) (resp : TextResp) : M String := do
  logReq r
  if 400 ≤ resp.status then throwPy .attributeError
  else if resp.text = "" then throwPy (.sysExit 1)
  else pure resp.text

/-- A bare `requests.get` + `raise_for_status()` (no catch): an error
status propagates `requests.HTTPError` to the caller. -/
def httpJson {α : Type} (r : Req) (resp : Fetched α) : M α := do
  logReq r
  if 400 ≤ resp.status then throwPy (.exc "HTTPError") else pure resp.payload

/-! ## utils.py -/

/-- Association-list assignment for string-valued rows (same semantics as
`setKey`). -/
def assocSet : List (String × String) → String → String → List (String × String)
  | [], k, v => [(k, v)]
  | (k', v') :: rest, k, v =>
    if k' = k then (k, v) :: rest else (k', v') :: assocSet rest k v

/-- First-occurrence lookup for string-valued rows. -/
def assocGet : List (String × String) → String → Option String
  | [], _ => none
  | (k', v') :: rest, k => if k' = k then some v' else assocGet rest k

/-- `row.get(key, default)`. -/
def rowGetD (row : List (String × String)) (k d : String) : String :=
  (assocGet row k).getD d

/-- `row[key]` (raises `KeyError` when absent). -/
def rowIdx (row : List (String × String)) (k : String) : Except PyErr String :=
  match assocGet row k with
  | some v => .ok v
  | none => .error .keyError

/-- `parse_tsv`: strip the text, split into lines, pop the header
(`IndexError` when there is no line), and zip each remaining line with the
header (`zip` truncates; duplicate header keys overwrite). -/
def parse_tsv (s : String) : Except PyErr (List (List (String × String))) :=
  let t := pyStrip s
  let lines := if t = "" then [] else splitStr '\n' t
  match lines with
  | [] => .error .indexError
  | header :: rest =>
    let hdr := splitStr '\t' header
    .ok (rest.map (fun line =>
      ((hdr.zip (splitStr '\t' line)).foldl (fun d kv => assocSet d kv.1 kv.2) [])))

/-- `get_xml`: fetch `{ENA_URL}/{accession}/` through `cached_get` and
parse the XML. -/
def get_xml (env : Env) (accession : String) : M Soup :=
  cachedGetDoc (.enaXml accession) (env.enaXml accession)

/-- `search_ena_study_runs`: ENA search for the run accessions of a
study.  (The `if not text: return []` branch is kept from the source even
though `cached_get` never returns empty text.) -/
def search_ena_study_runs (env : Env) (accession : String) : M (List String) := do
  let text ← cachedGetText (.enaSearch (.studyRuns accession))
    (env.enaSearch (.studyRuns accession))
  if text = "" then pure []
  else do
    let table ← liftE (parse_tsv text)
    mapML (fun t => liftE (rowIdx t "run_accession")) table

/-- `search_ena_run_study`: ENA search for the study of a run; exactly one
distinct study is required.  The dead `if not text` branch returns a
Python list, hence the `Val` result. -/
def search_ena_run_study (env : Env) (accession : String) : M Val := do
  let text ← cachedGetText (.enaSearch (.runStudy accession))
    (env.enaSearch (.runStudy accession))
  if text = "" then pure (Val.list [])
  else do
    let table ← liftE (parse_tsv text)
    let accs ← mapML (fun t => liftE (rowIdx t "secondary_study_accession")) table
    match accs.eraseDups with
    | [a] => pure (Val.str a)
    | _ => throwPy (.exc "run is associated with more than one study")

/-- `search_ena_run_sample`: ENA search for the sample of a run; exactly
one distinct sample is required. -/
def search_ena_run_sample (env : Env) (accession : String) : M Val := do
  let text ← cachedGetText (.enaSearch (.runSample accession))
    (env.enaSearch (.runSample accession))
  if text = "" then pure (Val.list [])
  else do
    let table ← liftE (parse_tsv text)
    let accs ← mapML (fun t => liftE (rowIdx t "secondary_sample_accession")) table
    match accs.eraseDups with
    | [a] => pure (Val.str a)
    | _ => throwPy (.exc "run is associated with more than one sample")

/-- `ncbi_search`: Entrez esearch; returns the sorted id list. -/
def ncbi_search (env : Env) (db term : String) : M (List String) := do
  let idlist ← httpJson (.ncbiSearch db term) (env.ncbiSearchResp db term)
  pure (pySorted idlist)

/-- `ncbi_link`: Entrez elink; collects the `links` of every
`linksetdb` of every `linkset` and returns them sorted and de-duplicated. -/
def ncbi_link (env : Env) (origin dest id : String) : M (List String) := do
  let linksets ← httpJson (.ncbiLink origin dest id) (env.ncbiLinkResp origin dest id)
  let ids := linksets.foldl (fun acc ls => ls.foldl (fun a ldb => a ++ ldb) acc) []
  pure (pySortedSet ids)

/-- `ncbi_summary('gds', id)[id]`: the environment returns the summary
document for the requested id directly. -/
def ncbi_summary_gds (env : Env) (id : String) : M GdsSummary :=
  httpJson (.gdsSummary id) (env.gdsSummaryResp id)

/-- `str(ncbi_summary('sra', ids))`: callers only regex-scan the
stringified summaries, so the environment returns that string. -/
def ncbi_summary_sra (env : Env) (ids : String) : M String :=
  httpJson (.sraSummary ids) (env.sraSummaryText ids)

/-- `geo_ids_to_gses`: Entrez efetch on `db=gds`, then the sorted distinct
`GSE_PARSER` captures of the response text. -/
def geo_ids_to_gses (env : Env) (ids : List String) : M (List String) := do
  let text ← httpJson (.gdsFetch ids) (env.gdsFetchText ids)
  pure (pySortedSet (gseFindall text))

/-- `sra_ids_to_srrs`: Entrez esummary on `db=sra`, then the sorted
distinct `SRR_PARSER` captures of the response text. -/
def sra_ids_to_srrs (env : Env) (ids : List String) : M (List String) := do
  let text ← httpJson (.sraSummary (joinSep "," ids))
    (env.sraSummaryText (joinSep "," ids))
  pure (pySortedSet (srrFindall text))

/-- `search_ena_title`: ENA study search by exact title; rows with a
non-empty `secondary_study_accession` give SRPs directly, rows without
that column are BioProjects resolved through Entrez
search → link → summary and the `SRP_PARSER` scan. -/
def search_ena_title (env : Env) (title : String) : M (List String) := do
  let text ← cachedGetText (.enaSearch (.titleSearch title))
    (env.enaSearch (.titleSearch title))
  if text = "" then pure []
  else do
    let table ← liftE (parse_tsv text)
    let srps := table.filterMap (fun t =>
      match assocGet t "secondary_study_accession" with
      | some v => if v ≠ "" then some v else none
      | none => none)
    let bioRows := table.filter (fun t => (assocGet t "secondary_study_accession").isNone)
    let bioprojects ← mapML (fun t => liftE (rowIdx t "study_accession")) bioRows
    if bioprojects.isEmpty then pure srps.eraseDups
    else do
      let bioproject_ids ← ncbi_search env "bioproject"
        (joinSep " or " (bioprojects.map (fun b => b ++ "[PRJA]")))
      let sra_ids ← ncbi_link env "bioproject" "sra" (joinSep "," bioproject_ids)
      let sras ← ncbi_summary_sra env (joinSep "," sra_ids)
      pure (srps ++ srpFindall sras).eraseDups

/-- `parse_range`: split the range on `-`, take the characters before the
first digit of the first bound as the base (`AttributeError` when the
bound has no digit), and emit the base plus the zero-filled decimal of
every number from the first bound's suffix to the last bound's suffix,
padded to the width of the first bound's suffix. -/
def parse_range (text : String) : Except PyErr (List String) :=
  match splitOnChar '-' text.data with
  | [first, last] =>
    (match (if first.any Char.isDigit
            then some (first.takeWhile (fun c => !c.isDigit)) else none) with
     | none => .error .attributeError
     | some base =>
       match pyIntChars (first.drop base.length), pyIntChars (last.drop base.length) with
       | some m, some n =>
         .ok ((List.range' m (n + 1 - m)).map
           (fun i => String.mk (base ++ zfill (natReprChars i) (first.length - base.length))))
       | _, _ => .error .valueError)
  | _ => .error .valueError

/-- `accession[:-3]`. -/
def pyDropLast3 (s : String) : String := String.mk (s.data.take (s.data.length - 3))

/-- The record-building loop of `geo_to_suppl`: `none` when any `file`
entry has a missing or non-numeric size (`int` raises inside the `try`,
so the whole listing is dropped). -/
def supplRecords (accession link : String) (entries : List FtpEntry) : Option (List Val) :=
  let path := link ++ pyDropLast3 accession ++ "nnn/" ++ accession ++ "/suppl/"
  (entries.foldlM (fun (st : Nat × List Val) entry =>
    if entry.typ = "file" then
      match entry.size with
      | none => none
      | some szs =>
        match pyIntChars szs.data with
        | none => none
        | some sz => some (st.1 + 1, st.2 ++ [Val.dict
            [("accession", .str accession), ("filename", .str entry.name),
             ("filetype", .pynone), ("filesize", .nat sz),
             ("filenumber", .nat (st.1 + 1)), ("md5", .pynone),
             ("urltype", .str "ftp"),
             ("url", .str ("ftp://ftp.ncbi.nlm.nih.gov" ++ path ++ entry.name))]])
    else some st) ((0 : Nat), ([] : List Val))).map Prod.snd

/-- `geo_to_suppl`: list the GEO FTP supplementary directory of the
accession; a failed listing or a malformed entry yields `[]`. -/
def geo_to_suppl (env : Env) (accession GEO : String) : M (List Val) := do
  let link ← if GEO = "GSM" then pure "/geo/samples/"
    else if GEO = "GSE" then pure "/geo/series/"
    else throwPy (.exc "NameError")
  logReq (.geoFtp GEO accession)
  match env.geoFtp GEO accession with
  | none => pure []
  | some entries =>
    match supplRecords accession link entries with
    | some supp => pure supp
    | none => pure []

/-- `gsm_to_platform`: first Entrez gds search hit; when it starts with
`1` it is a platform id whose summary's `accession`/`title` are
returned. -/
def gsm_to_platform (env : Env) (accession : String) : M Val := do
  let ids ← ncbi_search env "gds" accession
  match ids with
  | [] => throwPy .indexError
  | platform_id :: _ =>
    if "1".data.isPrefixOf platform_id.data then do
      let summary ← ncbi_summary_gds env platform_id
      pure (Val.dict [("platform", Val.dict
        [("accession", .str summary.accession), ("title", .str summary.title)])])
    else pure (Val.dict [])

/-- `get_gsm_search_json`: Entrez gds search; the last hit is the GEO id;
an empty hit list exits. -/
def get_gsm_search_json (env : Env) (accession : String) : M Val := do
  let geo ← ncbi_search env "gds" accession
  match geo.getLast? with
  | some geo_id =>
    pure (Val.dict [("accession", .str accession), ("geo_id", .str geo_id)])
  | none => throwPy (.sysExit 1)

/-- `gse_to_gsms`: GEO esearch for the GSE, Entrez summary of its last
id, and the sorted sample accessions of the summary. -/
def gse_to_gsms (env : Env) (accession : String) : M (List String) := do
  let doc ← cachedGetDoc (.gseSearch accession) (env.gseSearchResp accession)
  match doc.idlist.getLast? with
  | none => throwPy (.sysExit 1)
  | some gse_id => do
    let gse ← ncbi_summary_gds env gse_id
    pure (pySorted gse.samples)

/-- Catch-all `try`: the result of `x`, or `none` when `x` raised (the
requests `x` made before raising are not recorded, matching the loss of
that information to the caller). -/
def tryOpt {α : Type} (x : M α) : M (Option α) := fun log =>
  match x log with
  | .ok (a, log') => .ok (some a, log')
  | .error _ => .ok (none, log)

/-- The srx loop of `gsm_id_to_srs`: every iteration overwrites `sample`;
any exception inside the `try` makes the whole function return `None`. -/
def srsLoop (env : Env) (cur : Option String) : List String → M (Option String)
  | [] => pure cur
  | srx :: rest => do
    let r ← tryOpt (do
      let soup ← get_xml env srx
      match soup.idLike.find? sampleMatches with
      | some t => pure t
      | none => throwPy .attributeError)
    match r with
    | some t => srsLoop env (some t) rest
    | none => pure none

/-- `gsm_id_to_srs`: summary of the GEO id; the `SRA`-typed
`extrelations` targets are SRXs, each fetched from ENA to find a sample
id; no relation exits, a failed fetch returns `None`. -/
def gsm_id_to_srs (env : Env) (id : String) : M (Option String) := do
  let data ← ncbi_summary_gds env id
  let srxs := data.extrelations.filterMap
    (fun rel => if rel.1 = "SRA" then some rel.2 else none)
  match srxs with
  | [] => throwPy (.sysExit 1)
  | _ :: _ => srsLoop env none srxs

/-- `get_samples_from_study`: the first sample-matching `ID` text of the
study XML, split on commas with ranges expanded; `None` (Python) when the
element is missing. -/
def get_samples_from_study (env : Env) (accession : String) : M (Option (List String)) := do
  let soup ← get_xml env accession
  match soup.ids.find? sampleMatches with
  | some txt => do
    let samples ← foldML (fun acc r =>
        if strIn "-" r then do
          let ex ← liftE (parse_range r)
          pure (acc ++ ex)
        else pure (acc ++ [r]))
      [] ((splitOnChar ',' txt.data).map String.mk)
    pure (some samples)
  | none => pure none

/-- `srx_to_srrs`: the first run-matching `ID` text of the experiment
XML, split on commas with ranges expanded; falls back to the ENA search
when the element is missing. -/
def srx_to_srrs (env : Env) (accession : String) : M (List String) := do
  let soup ← get_xml env accession
  match soup.ids.find? runMatches with
  | some txt =>
    foldML (fun acc r =>
        if strIn "-" r then do
          let ex ← liftE (parse_range r)
          pure (acc ++ ex)
        else pure (acc ++ [r]))
      [] ((splitOnChar ',' txt.data).map String.mk)
  | none => search_ena_study_runs env accession

/-- `parse_url`: lowercase the url; `bam`/`fastq`/`sra` file type by
substring, and the mate number from the `_r1`/`_1`/`_r2`/`_2`/`_i1`
markers. -/
def parse_url (url : String) : String × Nat :=
  let u := pyLower url
  let filetype := if strIn "bam" u then "bam"
    else if strIn "fastq" u then "fastq" else "sra"
  let fileno :=
    if filetype = "bam" then 1
    else if filetype = "fastq" then
      (if strIn "_r1" u || strIn "_1" u then 1
       else if strIn "_r2" u || strIn "_2" u then 2
       else if strIn "_i1" u then 3
       else 1)
    else 1
  (filetype, fileno)

/-- A `zip` of three `split(';')` results (truncating, like Python's
`zip`). -/
def zip3L {α β γ : Type} : List α → List β → List γ → List (α × β × γ)
  | x :: xs, y :: ys, z :: zs => (x, y, z) :: zip3L xs ys zs
  | _, _, _ => []

/-- One FTP file record of `get_files_metadata_from_run`. -/
def fileRecord (accession url md5 : String) (size : Nat) : Val :=
  Val.dict [("accession", .str accession),
    ("filename", .str (lastSplit '/' url)),
    ("filetype", .str (parse_url url).1), ("filesize", .nat size),
    ("filenumber", .nat (parse_url url).2), ("md5", .str md5),
    ("urltype", .str "ftp"), ("url", .str ("ftp://" ++ url))]

/-- The list-comprehension body shared by the two manifest loops:
`int(size)` raises `ValueError` on a non-numeric size. -/
def filesFromTsv (accession urls md5s sizes : String) : Except PyErr (List Val) :=
  (zip3L (splitStr ';' urls) (splitStr ';' md5s) (splitStr ';' sizes)).mapM
    (fun t => match pyIntChars t.2.2.data with
      | none => .error .valueError
      | some sz => .ok (fileRecord accession t.1 t.2.1 sz))

/-- The first loop of `get_files_metadata_from_run`: the first
`ENA-FASTQ-FILES` cross-reference; its TSV must have exactly one row
(`assert`); an empty url, md5 or size field abandons the FASTQ manifest. -/
def fastqContribution (env : Env) (accession : String) (soup : Soup) : M (List Val) :=
  match soup.xrefLinks.find? (fun x => x.1 = "ENA-FASTQ-FILES") with
  | none => pure []
  | some x => do
    let text ← cachedGetText (.urlGet x.2) (env.urlText x.2)
    let table ← liftE (parse_tsv text)
    match table with
    | [row] =>
      let urls := rowGetD row "fastq_ftp" ""
      let md5s := rowGetD row "fastq_md5" ""
      let sizes := rowGetD row "fastq_bytes" ""
      if urls = "" || md5s = "" || sizes = "" then pure []
      else liftE (filesFromTsv accession urls md5s sizes)
    | _ => throwPy .assertionError

/-- The second loop of `get_files_metadata_from_run`: the first
`ENA-SUBMITTED-FILES` cross-reference; contributes files only when url,
md5 and size are non-empty and the submitted format contains `BAM`. -/
def submittedContribution (env : Env) (accession : String) (soup : Soup) : M (List Val) :=
  match soup.xrefLinks.find? (fun x => x.1 = "ENA-SUBMITTED-FILES") with
  | none => pure []
  | some x => do
    let text ← cachedGetText (.urlGet x.2) (env.urlText x.2)
    let table ← liftE (parse_tsv text)
    match table with
    | [row] =>
      let urls := rowGetD row "submitted_ftp" ""
      let md5s := rowGetD row "submitted_md5" ""
      let sizes := rowGetD row "submitted_bytes" ""
      let formats := rowGetD row "submitted_format" ""
      if urls = "" || md5s = "" || sizes = "" || !(strIn "BAM" formats) then pure []
      else liftE (filesFromTsv accession urls md5s sizes)
    | _ => throwPy .assertionError

/-- `get_files_metadata_from_run`: the run accession, then the FASTQ
manifest followed by the submitted (BAM) manifest. -/
def get_files_metadata_from_run (env : Env) (soup : Soup) : M (List Val) := do
  let accession ← match soup.primaryIds.find? runMatches with
    | some t => pure t
    | none => throwPy .attributeError
  let fastq ← fastqContribution env accession soup
  let submitted ← submittedContribution env accession soup
  pure (fastq ++ submitted)

/-- `ncbi_fetch_fasta`: Entrez efetch in `fasta`/`xml` mode; an HTTP
error or an empty body exits. -/
def ncbi_fetch_fasta (env : Env) (accession db : String) : M (List Alt) := do
  logReq (.fetchFasta accession db)
  let r := env.fetchFasta accession db
  if 400 ≤ r.status then throwPy (.sysExit 1)
  else if r.empty then throwPy (.sysExit 1)
  else pure r.payload

/-- `parse_ncbi_fetch_fasta`: the `url` attributes of the `Alternatives`
elements whose `org` is the requested server.  `links[0]` raises
`IndexError` when no element matches; `'bam' in links[0]` raises
`TypeError` when the first url attribute is missing; the last link is
dropped when the first is a BAM link or more than two links matched. -/
def parse_ncbi_fetch_fasta (alts : List Alt) (server : String) :
    Except PyErr (List (Option String)) :=
  let links := (alts.filter (fun a => a.org = some server)).map Alt.url
  match links with
  | [] => .error .indexError
  | none :: _ => .error .typeError
  | some u0 :: _ =>
    .ok (if strIn "bam" u0 || 2 < links.length then links.dropLast else links)

/-! ## ffq.py -/

/-- `dict.update({k: x})` on a `Val` (the argument is always a dict at
every use site). -/
def valUpdate (v : Val) (k : String) (x : Val) : Val :=
  match v with
  | .dict d => .dict (setKey d k x)
  | other => other

/-- `d.pop(k)`: the popped value together with the dict without the key
(`KeyError` when absent). -/
def popKey (v : Val) (k : String) : Except PyErr (Val × Val) :=
  match v with
  | .dict d =>
    match lookupKey d k with
    | some x => .ok (x, Val.dict (d.filter (fun kv => kv.1 ≠ k)))
    | none => .error .keyError
  | _ => .error .attributeError

/-- `v[k]` for a string key: dict lookup (`KeyError` when absent),
`TypeError` on a non-dict. -/
def pyGetItem (v : Val) (k : String) : Except PyErr Val :=
  match v with
  | .dict d =>
    match lookupKey d k with
    | some x => .ok x
    | none => .error .keyError
  | _ => .error .typeError

/-- `v.copy()`: defined for dicts and lists; `str`/`int`/`None` have no
`copy` attribute. -/
def pyCopy (v : Val) : Except PyErr Val :=
  match v with
  | .dict d => .ok (.dict d)
  | .list l => .ok (.list l)
  | _ => .error .attributeError

/-- `validate_accessions`: uppercase each input, extract its leading
non-digit prefix with `re.findall(r"(\D+).+", ...)[0]` (an empty
`findall` raises `IndexError`), and classify against the search-type
table, the DOI pattern, or `UNKNOWN`. -/
def validate_accessions (accessions search_types : List String) :
    Except PyErr (List Val) :=
  accessions.mapM (fun input_accession => do
    let accession := pyUpper input_accession
    let pfx ← match findPrefixCapture accession.data with
      | none => Except.error PyErr.indexError
      | some p => Except.ok (String.mk p)
    let (valid, pfx) :=
      if search_types.contains pfx then (true, pfx)
      else if doiMatch accession.data then (true, "DOI")
      else (false, "UNKNOWN")
    Except.ok (Val.dict [("accession", .str accession), ("prefix", .str pfx),
      ("valid", .bool valid), ("error", .pynone)]))

/-- The attribute dict of `parse_run`: each `RUN_ATTRIBUTE` with both a
`TAG` and a `VALUE` contributes; a malformed one is skipped. -/
def attrPairs (attrs : List (Option String × Option String)) : List (String × Val) :=
  attrs.foldl (fun d p =>
    match p with
    | (some tag, some value) => setKey d tag (.str value)
    | _ => d) []

/-- The `try`-guarded integer coercion of `ENA-SPOT-COUNT` and
`ENA-BASE-COUNT`: the spot count is assigned first, so a failure on the
base count keeps the coerced spot count. -/
def coerceCounts (attrs : List (String × Val)) : List (String × Val) :=
  match lookupKey attrs "ENA-SPOT-COUNT" with
  | some (.str s) =>
    (match pyIntChars s.data with
     | some n =>
       let a1 := setKey attrs "ENA-SPOT-COUNT" (.nat n)
       (match lookupKey a1 "ENA-BASE-COUNT" with
        | some (.str b) =>
          (match pyIntChars b.data with
           | some bn => setKey a1 "ENA-BASE-COUNT" (.nat bn)
           | none => a1)
        | _ => a1)
     | none => attrs)
  | _ => attrs

/-- The `attributes` value of `parse_run` (coercion only on a non-empty
dict). -/
def collectRunAttrs (attrs : List (Option String × Option String)) : Val :=
  let d := attrPairs attrs
  if d.isEmpty then Val.dict [] else Val.dict (coerceCounts d)

/-- `for url in links: if accession in url: results.append(...)` for the
AWS/GCP/NCBI buckets of `parse_run` (`None` urls raise `TypeError` at the
`in` test). -/
def altResults (accession urltype : String) (links : List (Option String)) :
    Except PyErr (List Val) :=
  links.foldlM (fun acc u =>
    match u with
    | none => .error .typeError
    | some url =>
      if strIn accession url then
        .ok (acc ++ [Val.dict [("accession", .str accession),
          ("filename", .str (lastSplit '/' url)),
          ("filetype", .str (parse_url url).1), ("filesize", .pynone),
          ("filenumber", .nat (parse_url url).2), ("md5", .pynone),
          ("urltype", .str urltype), ("url", .str url)]])
      else .ok acc) []

/-- The accession stage of `parse_run`: the first `PRIMARY_ID` matching
the run pattern (an `AttributeError` on `None.text` when none does). -/
def runAccession (soup : Soup) : M String :=
  match soup.primaryIds.find? runMatches with
  | some t => pure t
  | none => throwPy .attributeError

/-- The experiment stage of `parse_run`: a `PRIMARY_ID` matching the
experiment pattern, falling back to the `EXPERIMENT_REF` accession
attribute (`TypeError`/`KeyError` when the element or attribute is
missing). -/
def runExperiment (soup : Soup) : M String :=
  match soup.primaryIds.find? experimentMatches with
  | some t => pure t
  | none =>
    match soup.experimentRef with
    | none => throwPy .typeError
    | some none => throwPy .keyError
    | some (some a) => pure a

/-- The study stage of `parse_run`: an `ID` matching the project pattern,
falling back to the ENA run-to-study search. -/
def runStudy (env : Env) (soup : Soup) (accession : String) : M Val :=
  match soup.ids.find? projectMatches with
  | some t => pure (Val.str t)
  | none => search_ena_run_study env accession

/-- The sample stage of `parse_run`: an `ID` matching the sample pattern,
falling back to the ENA run-to-sample search. -/
def runSample (env : Env) (soup : Soup) (accession : String) : M Val :=
  match soup.ids.find? sampleMatches with
  | some t => pure (Val.str t)
  | none => search_ena_run_sample env accession

/-- The title stage of `parse_run` (`AttributeError` when the `TITLE`
element is missing). -/
def runTitle (soup : Soup) : M String :=
  match soup.title with
  | some t => pure t
  | none => throwPy .attributeError

/-- `parse_run`: accession, experiment (`PRIMARY_ID` match or the
`EXPERIMENT_REF` accession attribute), study/sample (`ID` match or the
ENA search fallback), title, attributes, the FTP file manifest, and the
AWS/GCP/NCBI alternate links. -/
def parse_run (env : Env) (soup : Soup) : M Val := do
  let accession ← runAccession soup
  let experiment ← runExperiment soup
  let study ← runStudy env soup accession
  let sample ← runSample env soup accession
  let title ← runTitle soup
  let attributes := collectRunAttrs soup.runAttributes
  let ftp_files ← get_files_metadata_from_run env soup
  let alts ← ncbi_fetch_fasta env accession "sra"
  let aws_links ← liftE (parse_ncbi_fetch_fasta alts "AWS")
  let aws_results ← liftE (altResults accession "aws" aws_links)
  let gcp_links ← liftE (parse_ncbi_fetch_fasta alts "GCP")
  let gcp_results ← liftE (altResults accession "gcp" gcp_links)
  let ncbi_links ← liftE (parse_ncbi_fetch_fasta alts "NCBI")
  let ncbi_results ← liftE (altResults accession "ncbi" ncbi_links)
  let files := Val.dict [("ftp", .list ftp_files), ("aws", .list aws_results),
    ("gcp", .list gcp_results), ("ncbi", .list ncbi_results)]
  pure (Val.dict [("accession", .str accession), ("experiment", .str experiment),
    ("study", study), ("sample", sample), ("title", .str title),
    ("attributes", attributes), ("files", files)])

/-- The all-or-nothing `SAMPLE_ATTRIBUTE` dict comprehension of
`parse_sample` (`none` models the comprehension raising, which makes
`attributes` the empty string). -/
def collectSampleAttrs (attrs : List (Option String × Option String)) :
    Option (List (String × Val)) :=
  attrs.foldlM (fun d p =>
    match p with
    | (some tag, some value) => some (setKey d tag (Val.str value))
    | _ => none) []

/-- `parse_sample`: accession, title, organism, the attribute dict
(`''` when the comprehension raised), and the experiment reference text
(`''` when no `ID` or `PRIMARY_ID` matches). -/
def parse_sample (soup : Soup) : Except PyErr Val :=
  match soup.primaryIds.find? sampleMatches with
  | none => .error .attributeError
  | some accession =>
    match soup.title with
    | none => .error .attributeError
    | some title =>
      match soup.scientificName with
      | none => .error .attributeError
      | some organism =>
        let attributes := match collectSampleAttrs soup.sampleAttributes with
          | none => Val.str ""
          | some [] => Val.dict []
          | some d => Val.dict (coerceCounts d)
        let experiment := match soup.ids.find? experimentMatches with
          | some t => t
          | none =>
            match soup.primaryIds.find? experimentMatches with
            | some t => t
            | none => ""
        .ok (Val.dict [("accession", .str accession), ("title", .str title),
          ("organism", .str organism), ("attributes", attributes),
          ("experiments", .str experiment)])

/-- `parse_study`: accession, title, and abstract (empty when the
`STUDY_ABSTRACT` element is missing). -/
def parse_study (soup : Soup) : Except PyErr Val :=
  match soup.primaryIds.find? projectMatches with
  | none => .error .attributeError
  | some accession =>
    match soup.studyTitle with
    | none => .error .attributeError
    | some title =>
      .ok (Val.dict [("accession", .str accession), ("title", .str title),
        ("abstract", .str (soup.studyAbstract.getD ""))])

/-- `parse_gse_search`: the accession is the `querytranslation` up to the
first `[`, the GEO id is the last esearch hit; an empty hit list exits. -/
def parse_gse_search (doc : GseSearchDoc) : Except PyErr Val :=
  match doc.idlist.getLast? with
  | some geo_id =>
    let accession := match splitOnChar '[' doc.querytranslation.data with
      | h :: _ => String.mk h
      | [] => ""
    .ok (Val.dict [("accession", .str accession), ("geo_id", .str geo_id)])
  | none => .error (.sysExit 1)

/-- `level -= 1` under `try/except` (`None` stays `None`). -/
def decLevel (level : Option Int) : Option Int := level.map (fun l => l - 1)

/-- `level is None or level > 1`. -/
def levelExpands (level : Option Int) : Bool :=
  match level with
  | none => true
  | some k => 1 < k

/-- `ffq_run` (the `level` argument of the source is unused). -/
def ffq_run (env : Env) (accession : String) : M Val := do
  let soup ← get_xml env accession
  parse_run env soup

/-- `parse_experiment_with_run`: the experiment's own fields, plus — when
the level allows expansion — the dict of its runs keyed by run
accession string. -/
def parse_experiment_with_run (env : Env) (soup : Soup) (level : Option Int) : M Val := do
  let accession ← match soup.primaryIds.find? experimentMatches with
    | some t => pure t
    | none => throwPy .attributeError
  let title ← match soup.title with
    | some t => pure t
    | none => throwPy .attributeError
  let pi ← match soup.instrumentModel with
    | some p => pure p
    | none => throwPy .attributeError
  let expFields : List (String × Val) :=
    [("accession", .str accession), ("title", .str title),
     ("platform", .str pi.1), ("instrument", .str pi.2)]
  if levelExpands level then do
    let runs ← srx_to_srrs env accession
    let runVals ← mapML (fun run => do
        let rv ← ffq_run env run
        pure ((run, rv) : String × Val)) runs
    let runsDict := runVals.foldl (fun d kv => setKey d kv.1 kv.2) []
    pure (Val.dict (setKey expFields "runs" (Val.dict runsDict)))
  else
    pure (Val.dict expFields)

/-- `ffq_experiment`. -/
def ffq_experiment (env : Env) (accession : String) (level : Option Int) : M Val := do
  let soup ← get_xml env accession
  parse_experiment_with_run env soup level

/-- `ffq_sample`: the sample's own fields; unless `level == 1`, the
`experiments` accession string is resolved — a single accession becomes a
one-entry dict, a comma-separated list becomes a Python list of one-entry
dicts. -/
def ffq_sample (env : Env) (accession : String) (level : Option Int) : M Val := do
  let soup ← get_xml env accession
  let sample ← liftE (parse_sample soup)
  if level ≠ some 1 then do
    let level := decLevel level
    let exp_id ← match sample.get? "experiments" with
      | some (Val.str s) => pure s
      | _ => throwPy .keyError
    if exp_id ≠ "" then
      if strIn "," exp_id then do
        let experiments ← mapML (fun e => ffq_experiment env e level) (splitStr ',' exp_id)
        let entries ← mapML (fun e =>
            match e.get? "accession" with
            | some (Val.str a) => pure (Val.dict [(a, e)])
            | _ => throwPy .typeError) experiments
        pure (valUpdate sample "experiments" (Val.list entries))
      else do
        let experiment ← ffq_experiment env exp_id level
        match experiment.get? "accession" with
        | some (Val.str a) =>
          pure (valUpdate sample "experiments" (Val.dict [(a, experiment)]))
        | _ => throwPy .typeError
    else pure sample
  else pure sample

/-- `ffq_study`: the study's own fields; unless `level == 1`, the dict of
its samples keyed by sample accession (`len(None)` raises `TypeError`
when the sample list could not be parsed). -/
def ffq_study (env : Env) (accession : String) (level : Option Int) : M Val := do
  let soup ← get_xml env accession
  let study ← liftE (parse_study soup)
  if level ≠ some 1 then do
    let level := decLevel level
    let sids ← get_samples_from_study env accession
    match sids with
    | none => throwPy .typeError
    | some sample_ids => do
      let samples ← mapML (fun s => ffq_sample env s level) sample_ids
      let pairs ← mapML (fun s =>
          match s.get? "accession" with
          | some (Val.str a) => pure ((a, s) : String × Val)
          | _ => throwPy .typeError) samples
      pure (valUpdate study "samples"
        (Val.dict (pairs.foldl (fun d kv => setKey d kv.1 kv.2) [])))
  else pure study

/-- `ffq_gsm`: the GSM search record, supplementary files, platform;
unless `level == 1`, the GEO id is popped and resolved to a sample. -/
def ffq_gsm (env : Env) (accession : String) (level : Option Int) : M Val := do
  let gsm ← get_gsm_search_json env accession
  let supp ← geo_to_suppl env accession "GSM"
  let gsm := if !supp.isEmpty then valUpdate gsm "supplementary_files" (Val.list supp)
    else gsm
  let plat ← gsm_to_platform env accession
  let gsm := match plat with
    | .dict pd => pd.foldl (fun g kv => valUpdate g kv.1 kv.2) gsm
    | _ => gsm
  if level ≠ some 1 then do
    let level := decLevel level
    let popped ← liftE (popKey gsm "geo_id")
    let gsm := popped.2
    let geo_id ← match popped.1 with
      | .str s => pure s
      | _ => throwPy .typeError
    let srs ← gsm_id_to_srs env geo_id
    match srs with
    | some srsAcc =>
      if srsAcc ≠ "" then do
        let sample ← ffq_sample env srsAcc level
        match sample.get? "accession" with
        | some (Val.str a) => pure (valUpdate gsm "samples" (Val.dict [(a, sample)]))
        | _ => throwPy .typeError
      else pure gsm
    | none => pure gsm
  else pure gsm

/-- `ffq_gse`: the GSE search record with supplementary files and the GEO
id popped; unless `level == 1`, the dict of its GSMs keyed by GSM
accession. -/
def ffq_gse (env : Env) (accession : String) (level : Option Int) : M Val := do
  let doc ← cachedGetDoc (.gseSearch accession) (env.gseSearchResp accession)
  let gse ← liftE (parse_gse_search doc)
  let supp ← geo_to_suppl env accession "GSE"
  let gse := if 0 < supp.length then valUpdate gse "supplementary_files" (Val.list supp)
    else gse
  let popped ← liftE (popKey gse "geo_id")
  let gse := popped.2
  if level ≠ some 1 then do
    let level := decLevel level
    let gsm_ids ← gse_to_gsms env accession
    let gsms ← mapML (fun g => ffq_gsm env g level) gsm_ids
    let pairs ← mapML (fun s =>
        match s.get? "accession" with
        | some (Val.str a) => pure ((a, s) : String × Val)
        | _ => throwPy .typeError) gsms
    pure (valUpdate gse "geo_samples"
      (Val.dict (pairs.foldl (fun d kv => setKey d kv.1 kv.2) [])))
  else pure gse

/-- `get_doi`: CrossRef metadata for the DOI (the `message` envelope). -/
def get_doi (env : Env) (doi : String) : M DoiMsg :=
  cachedGetDoc (.crossref doi) (env.crossrefResp doi)

/-- `doi = urlparse(doi).path.strip('/')` when the DOI has an http(s)
scheme. -/
def stripScheme (doi : String) : String :=
  let dropHost := fun (s : String) =>
    String.mk (((s.data.dropWhile (fun c => c ≠ '/')).dropWhile (fun c => c = '/')).reverse.dropWhile
      (fun c => c = '/')).reverse
  if "http://".data.isPrefixOf doi.data then dropHost (String.mk (doi.data.drop 7))
  else if "https://".data.isPrefixOf doi.data then dropHost (String.mk (doi.data.drop 8))
  else doi

/-- The run-grouping loop of DOI tier 3: each run's `study` value is
copied, indexed by `accession`, and used as the key of a dict of study
records accumulating a `runs` dict keyed by run accession. -/
def groupRunsByStudy (runs : List Val) : Except PyErr (List Val) := do
  let studies ← runs.foldlM (fun (studies : List (String × Val)) run => do
      let studyRaw ← pyGetItem run "study"
      let study ← pyCopy studyRaw
      let accV ← pyGetItem study "accession"
      let acc ← match accV with
        | .str s => Except.ok s
        | _ => Except.error PyErr.typeError
      let base := (lookupKey studies acc).getD study
      let bd ← match base with
        | .dict d => Except.ok d
        | _ => Except.error PyErr.attributeError
      let runsD ← match (lookupKey bd "runs").getD (Val.dict []) with
        | .dict d => Except.ok d
        | _ => Except.error PyErr.typeError
      let runAcc ← match run.get? "accession" with
        | some (.str s) => Except.ok s
        | _ => Except.error PyErr.typeError
      Except.ok (setKey studies acc
        (Val.dict (setKey bd "runs" (Val.dict (setKey runsD runAcc run)))))) []
  Except.ok (studies.map Prod.snd)

/-- DOI tier 2: GEO ids linked to the Pubmed id are converted to GSE
accessions; a count mismatch raises; each GSE is resolved with no depth
bound. -/
def doiGeoTier (env : Env) (geo_ids : List String) : M (List Val) := do
  let gses ← geo_ids_to_gses env geo_ids
  if gses.length ≠ geo_ids.length then
    throwPy (.exc "GEO accession count mismatch")
  else
    mapML (fun a => ffq_gse env a none) gses

/-- DOI tier 3: SRA ids linked to the Pubmed id are converted to run
accessions, each run resolved, and the runs grouped by study. -/
def doiSraTier (env : Env) (pubmed_id : String) : M (List Val) := do
  let sra_ids ← ncbi_link env "pubmed" "sra" pubmed_id
  if !sra_ids.isEmpty then do
    let srrs ← sra_ids_to_srrs env sra_ids
    let runs ← mapML (fun a => ffq_run env a) srrs
    liftE (groupRunsByStudy runs)
  else throwPy (.exc "No SRA records are linked to the Pubmed ID")

/-- `ffq_doi`: title search for studies, else a single Pubmed id linked
to GEO (tier 2) or to SRA (tier 3). -/
def ffq_doi (env : Env) (doi : String) : M (List Val) := do
  let doi := stripScheme doi
  let paper ← get_doi env doi
  let titles ← match paper.title with
    | some ts => pure ts
    | none => throwPy .keyError
  let title ← match titles with
    | t :: _ => pure t
    | [] => throwPy .indexError
  let study_accessions ← search_ena_title env title
  if !study_accessions.isEmpty then
    mapML (fun a => ffq_study env a none) study_accessions
  else do
    let pubmed_ids ← ncbi_search env "pubmed" doi
    match pubmed_ids with
    | [] => throwPy (.exc "No Pubmed records match the DOI")
    | [pubmed_id] => do
      let geo_ids ← ncbi_link env "pubmed" "gds" pubmed_id
      if !geo_ids.isEmpty then doiGeoTier env geo_ids
      else doiSraTier env pubmed_id
    | _ => throwPy (.exc "more than one Pubmed record matches the DOI")

/-! ## Concrete registry fixtures -/

/-- The record an `M Val` computation resolves to (`None` on failure). -/
def resolvedVal (x : M Val) : Val :=
  match x [] with
  | .ok p => p.1
  | .error _ => Val.pynone

/-- The list an `M (List Val)` computation resolves to (`[]` on failure). -/
def resolvedList (x : M (List Val)) : List Val :=
  match x [] with
  | .ok p => p.1
  | .error _ => []

/-- The request trace of a successful `M` computation (`[]` on failure). -/
def resolvedLog {α : Type} (x : M α) : List Req :=
  match x [] with
  | .ok p => p.2
  | .error _ => []

/-- The ENA XML record of run `SRR1` in the fixtures: primary ids for the
run and its experiment, cross-reference ids for its study and sample, a
title, and no file cross-references. -/
def runSoup1 : Soup :=
  { primaryIds := ["SRR1", "SRX1"], ids := ["SRP1", "SRS1"], title := some "rt" }

/-- The SRA-Lite alternate links of `SRR1` in the fixtures: one link per
origin. -/
def alts1 : List Alt :=
  [{ org := some "AWS", url := some "https://aws.amazonaws.com/x/SRR1.1" },
   { org := some "GCP", url := some "gs://gcp/SRR1.1" },
   { org := some "NCBI", url := some "https://ncbi.gov/SRR1.1" }]

/-- A registry fixture with one study (`SRP1`, samples `SRS1`/`SRS2`),
one experiment (`SRX1`, run `SRR1`), a GEO series `GSE1` with one GSM
(`GSM1`) whose GEO id links back to `SRX1`, and no supplementary files.
`SRS2`'s experiment reference is the comma-separated list `SRX1,SRX1`. -/
def resEnv : Env :=
  { enaXml := fun acc =>
      if acc = "SRP1" then
        { payload := { primaryIds := ["SRP1"], ids := ["SRS1,SRS2"],
                       studyTitle := some "st" } }
      else if acc = "SRS1" then
        { payload := { primaryIds := ["SRS1"], ids := ["SRX1"], title := some "s1",
                       scientificName := some "org" } }
      else if acc = "SRS2" then
        { payload := { primaryIds := ["SRS2"], ids := ["SRX1,SRX1"], title := some "s2",
                       scientificName := some "org" } }
      else if acc = "SRX1" then
        { payload := { primaryIds := ["SRX1"], ids := ["SRR1"], idLike := ["SRS1"],
                       title := some "xt",
                       instrumentModel := some ("ILLUMINA", "NextSeq 500") } }
      else if acc = "SRR1" then { payload := runSoup1 }
      else { status := 404, payload := {} },
    fetchFasta := fun acc db =>
      if acc = "SRR1" ∧ db = "sra" then { payload := alts1 } else { payload := [] },
    ncbiSearchResp := fun db term =>
      if db = "gds" ∧ term = "GSM1" then { payload := ["300"] } else { payload := [] },
    gdsSummaryResp := fun id =>
      if id = "300093374" then { payload := { samples := ["GSM1"] } }
      else if id = "300" then { payload := { extrelations := [("SRA", "SRX1")] } }
      else { payload := {} },
    gseSearchResp := fun acc =>
      if acc = "GSE1" then
        { payload := { idlist := ["300093374"],
                       querytranslation := "GSE1[GEO Accession]" } }
      else { empty := true, payload := {} },
    geoFtp := fun _ _ => none }

/-- A fixture where the ENA search endpoint answers the run search of
`SRP1` with an empty body and that of `SRP2` with a header-only TSV. -/
def searchEnv : Env :=
  { enaSearch := fun q =>
      if q = .studyRuns "SRP1" then { text := "" }
      else if q = .studyRuns "SRP2" then { text := "run_accession\n" }
      else { text := "x" } }

/-- A fixture driving `ffq_doi` into tier 3: the title search finds no
study, one Pubmed id matches, no GEO record is linked, and one SRA id
resolves to run `SRR1`. -/
def doiEnv : Env :=
  { crossrefResp := fun doi =>
      if doi = "10.1000/X" then { payload := { title := some ["T1"] } }
      else { empty := true, payload := {} },
    enaSearch := fun q =>
      if q = .titleSearch "T1" then { text := "secondary_study_accession\n" }
      else { text := "x" },
    ncbiSearchResp := fun db term =>
      if db = "pubmed" ∧ term = "10.1000/X" then { payload := ["PM1"] }
      else { payload := [] },
    ncbiLinkResp := fun origin dest id =>
      if origin = "pubmed" ∧ dest = "sra" ∧ id = "PM1" then { payload := [[["SID1"]]] }
      else { payload := [] },
    sraSummaryText := fun ids =>
      if ids = "SID1" then { payload := "Run acc=\x22SRR1\x22 ..." }
      else { payload := "" },
    enaXml := fun acc =>
      if acc = "SRR1" then { payload := runSoup1 } else { status := 404, payload := {} },
    fetchFasta := fun acc db =>
      if acc = "SRR1" ∧ db = "sra" then { payload := alts1 } else { payload := [] } }

/-- A fixture for the GEO tier of `ffq_doi`: GEO id `700` converts to the
single GSE accession `GSE77`, which resolves with an empty sample list. -/
def geoEnv : Env :=
  { gdsFetchText := fun ids =>
      if ids = ["700"] then { payload := "Series\t\tAccession: GSE77\t" }
      else { payload := "" },
    gseSearchResp := fun acc =>
      if acc = "GSE77" then
        { payload := { idlist := ["300077"], querytranslation := "GSE77[GEO Accession]" } }
      else { empty := true, payload := {} },
    geoFtp := fun _ _ => none }

/-- The run XML fixture whose `ENA-FASTQ-FILES` and `ENA-SUBMITTED-FILES`
cross-references both resolve. -/
def manifestSoup : Soup :=
  { primaryIds := ["SRR5"],
    xrefLinks := [("ENA-FASTQ-FILES", "fq"), ("ENA-SUBMITTED-FILES", "sb")] }

/-- The TSV bodies behind `manifestSoup`'s cross-references: a FASTQ row
with non-empty url/md5/size, and a BAM submitted row. -/
def manifestEnv : Env :=
  { urlText := fun u =>
      if u = "fq" then
        { text := "fastq_ftp\tfastq_md5\tfastq_bytes\nh/SRR5_1.fastq.gz\tmd1\t100" }
      else if u = "sb" then
        { text := "submitted_ftp\tsubmitted_md5\tsubmitted_bytes\tsubmitted_format\nh/SRR5.bam\tmd2\t200\tBAM" }
      else { text := "x" } }

/-- A run record fixture with an empty title, an empty
`EXPERIMENT_REF`-sourced experiment accession, and study/sample resolved
through the ENA search fallback to empty column values. -/
def degenerateRunEnv : Env :=
  { enaXml := fun acc =>
      if acc = "SRR6" then
        { payload := { primaryIds := ["SRR6"], experimentRef := some (some ""),
                       title := some "" } }
      else { status := 404, payload := {} },
    enaSearch := fun q =>
      if q = .runStudy "SRR6" then
        { text := "secondary_study_accession\tz\n\tq" }
      else if q = .runSample "SRR6" then
        { text := "secondary_sample_accession\tz\n\tq" }
      else { text := "x" },
    fetchFasta := fun acc db =>
      if acc = "SRR6" ∧ db = "sra" then
        { payload := [{ org := some "AWS", url := some "a/SRR6.1" },
                      { org := some "GCP", url := some "g/SRR6.1" },
                      { org := some "NCBI", url := some "n/SRR6.1" }] }
      else { payload := [] } }

/-- The run XML fixture whose FASTQ manifest row has an empty url field
and whose submitted manifest row has a non-`BAM` format. -/
def emptyManifestSoup : Soup :=
  { primaryIds := ["SRR8"],
    xrefLinks := [("ENA-FASTQ-FILES", "fq8"), ("ENA-SUBMITTED-FILES", "sb8")] }

/-- The TSV bodies behind `emptyManifestSoup`'s cross-references. -/
def emptyManifestEnv : Env :=
  { urlText := fun u =>
      if u = "fq8" then
        { text := "fastq_ftp\tfastq_md5\tfastq_bytes\n\tmd\t100" }
      else if u = "sb8" then
        { text := "submitted_ftp\tsubmitted_md5\tsubmitted_bytes\tsubmitted_format\nh/SRR8.cram\tmd\t200\tCRAM" }
      else { text := "x" } }

/-- An alternate-links fixture with no `AWS`-tagged entry. -/
def noAwsEnv : Env :=
  { enaXml := fun acc =>
      if acc = "SRR7" then
        { payload := { primaryIds := ["SRR7", "SRX7"], ids := ["SRP7", "SRS7"],
                       title := some "t7" } }
      else { status := 404, payload := {} },
    fetchFasta := fun acc db =>
      if acc = "SRR7" ∧ db = "sra" then
        { payload := [{ org := some "GCP", url := some "g/SRR7.1" }] }
      else { payload := [] } }

-- ===== THEOREMS =====

/-! ## Monad lemmas -/

theorem bind_apply {α β : Type} (x : M α) (f : α → M β) (log : List Req) :
    (x >>= f) log = match x log with
      | .ok (a, l) => f a l
      | .error e => .error e := rfl

theorem bind_ok {α β : Type} {x : M α} {f : α → M β} {log : List Req} {r : β × List Req} :
    (x >>= f) log = .ok r ↔ ∃ a l1, x log = .ok (a, l1) ∧ f a l1 = .ok r := by
  constructor
  · intro h
    cases hx : x log with
    | error e => rw [bind_apply, hx] at h; cases h
    | ok p =>
      obtain ⟨a, l1⟩ := p
      exact ⟨a, l1, rfl, by rw [bind_apply, hx] at h; exact h⟩
  · rintro ⟨a, l1, hx, hf⟩
    rw [bind_apply, hx]
    exact hf

theorem pure_ok {α : Type} {a : α} {log : List Req} {r : α × List Req} :
    (pure a : M α) log = .ok r ↔ r = (a, log) := by
  constructor
  · intro h; exact (Except.ok.inj h).symm
  · intro h; rw [h]; rfl

theorem liftE_ok {α : Type} {x : Except PyErr α} {log : List Req} {r : α × List Req} :
    liftE x log = .ok r ↔ ∃ a, x = .ok a ∧ r = (a, log) := by
  cases x with
  | ok a =>
    constructor
    · intro h
      exact ⟨a, rfl, (Except.ok.inj h).symm⟩
    · rintro ⟨b, hb, hr⟩
      cases hb
      rw [hr]; rfl
  | error e =>
    constructor
    · intro h; cases h
    · rintro ⟨b, hb, _⟩; cases hb

theorem throw_not_ok {α : Type} {e : PyErr} {log : List Req} {r : α × List Req} :
    ¬ ((throwPy e : M α) log = .ok r) := fun h => by cases h

theorem logReq_ok {r' : Req} {log : List Req} {r : Unit × List Req} :
    logReq r' log = .ok r ↔ r = ((), log ++ [r']) := by
  constructor
  · intro h; exact (Except.ok.inj h).symm
  · intro h; rw [h]; rfl

theorem run_def {α : Type} (x : M α) : x.run = x [] := rfl

theorem get_xml_ok {env : Env} {acc : String} {log : List Req} {r : Soup × List Req} :
    get_xml env acc log = .ok r ↔
      ¬ 400 ≤ (env.enaXml acc).status ∧ (env.enaXml acc).empty = false ∧
      r = ((env.enaXml acc).payload, log ++ [Req.enaXml acc]) := by
  unfold get_xml cachedGetDoc
  rw [bind_ok]
  constructor
  · rintro ⟨a, l1, hl, h⟩
    rw [logReq_ok] at hl
    obtain ⟨rfl, rfl⟩ := Prod.mk.injEq .. ▸ hl
    split at h
    · exact absurd h throw_not_ok
    · split at h
      · exact absurd h throw_not_ok
      · rename_i h1 h2
        rw [pure_ok] at h
        exact ⟨h1, by simpa using h2, h⟩
  · rintro ⟨h1, h2, hr⟩
    refine ⟨(), log ++ [Req.enaXml acc], rfl, ?_⟩
    rw [if_neg h1, if_neg (by simp [h2])]
    rw [pure_ok]
    exact hr

theorem cachedGetDoc_ok {α : Type} {rq : Req} {resp : Fetched α} {log : List Req}
    {r : α × List Req} :
    (cachedGetDoc rq resp : M α) log = .ok r ↔
      ¬ 400 ≤ resp.status ∧ resp.empty = false ∧ r = (resp.payload, log ++ [rq]) := by
  unfold cachedGetDoc
  rw [bind_ok]
  constructor
  · rintro ⟨a, l1, hl, h⟩
    rw [logReq_ok] at hl
    obtain ⟨rfl, rfl⟩ := Prod.mk.injEq .. ▸ hl
    split at h
    · exact absurd h throw_not_ok
    · split at h
      · exact absurd h throw_not_ok
      · rename_i h1 h2
        rw [pure_ok] at h
        exact ⟨h1, by simpa using h2, h⟩
  · rintro ⟨h1, h2, hr⟩
    refine ⟨(), log ++ [rq], rfl, ?_⟩
    rw [if_neg h1, if_neg (by simp [h2])]
    rw [pure_ok]
    exact hr

theorem cachedGetText_ok {rq : Req} {resp : TextResp} {log : List Req}
    {r : String × List Req} :
    cachedGetText rq resp log = .ok r ↔
      ¬ 400 ≤ resp.status ∧ resp.text ≠ "" ∧ r = (resp.text, log ++ [rq]) := by
  unfold cachedGetText
  rw [bind_ok]
  constructor
  · rintro ⟨a, l1, hl, h⟩
    rw [logReq_ok] at hl
    obtain ⟨rfl, rfl⟩ := Prod.mk.injEq .. ▸ hl
    split at h
    · exact absurd h throw_not_ok
    · split at h
      · exact absurd h throw_not_ok
      · rename_i h1 h2
        rw [pure_ok] at h
        exact ⟨h1, h2, h⟩
  · rintro ⟨h1, h2, hr⟩
    refine ⟨(), log ++ [rq], rfl, ?_⟩
    rw [if_neg h1, if_neg h2]
    rw [pure_ok]
    exact hr

theorem httpJson_ok {α : Type} {rq : Req} {resp : Fetched α} {log : List Req}
    {r : α × List Req} :
    (httpJson rq resp : M α) log = .ok r ↔
      ¬ 400 ≤ resp.status ∧ r = (resp.payload, log ++ [rq]) := by
  unfold httpJson
  rw [bind_ok]
  constructor
  · rintro ⟨a, l1, hl, h⟩
    rw [logReq_ok] at hl
    obtain ⟨rfl, rfl⟩ := Prod.mk.injEq .. ▸ hl
    split at h
    · exact absurd h throw_not_ok
    · rename_i h1
      rw [pure_ok] at h
      exact ⟨h1, h⟩
  · rintro ⟨h1, hr⟩
    refine ⟨(), log ++ [rq], rfl, ?_⟩
    rw [if_neg h1]
    rw [pure_ok]
    exact hr

theorem ncbi_fetch_fasta_ok {env : Env} {acc db : String} {log : List Req}
    {r : List Alt × List Req} :
    ncbi_fetch_fasta env acc db log = .ok r ↔
      ¬ 400 ≤ (env.fetchFasta acc db).status ∧ (env.fetchFasta acc db).empty = false ∧
      r = ((env.fetchFasta acc db).payload, log ++ [Req.fetchFasta acc db]) := by
  unfold ncbi_fetch_fasta
  rw [bind_ok]
  constructor
  · rintro ⟨a, l1, hl, h⟩
    rw [logReq_ok] at hl
    obtain ⟨rfl, rfl⟩ := Prod.mk.injEq .. ▸ hl
    split at h
    · exact absurd h throw_not_ok
    · split at h
      · exact absurd h throw_not_ok
      · rename_i h1 h2
        rw [pure_ok] at h
        exact ⟨h1, by simpa using h2, h⟩
  · rintro ⟨h1, h2, hr⟩
    refine ⟨(), log ++ [Req.fetchFasta acc db], rfl, ?_⟩
    rw [if_neg h1, if_neg (by simp [h2])]
    rw [pure_ok]
    exact hr

theorem mapML_ok_length {α β : Type} {f : α → M β} :
    ∀ {xs : List α} {log : List Req} {ys : List β} {l' : List Req},
      mapML f xs log = .ok (ys, l') → ys.length = xs.length := by
  intro xs
  induction xs with
  | nil =>
    intro log ys l' h
    rw [mapML, pure_ok] at h
    cases h
    rfl
  | cons x xs ih =>
    intro log ys l' h
    rw [mapML, bind_ok] at h
    obtain ⟨y, l1, _, h⟩ := h
    rw [bind_ok] at h
    obtain ⟨ys', l2, hys, h⟩ := h
    rw [pure_ok] at h
    cases h
    simp [ih hys]

theorem mapML_ok_mem {α β : Type} {f : α → M β} :
    ∀ {xs : List α} {log : List Req} {ys : List β} {l' : List Req},
      mapML f xs log = .ok (ys, l') →
      ∀ y ∈ ys, ∃ x l1 r1, x ∈ xs ∧ f x l1 = .ok (y, r1) := by
  intro xs
  induction xs with
  | nil =>
    intro log ys l' h
    rw [mapML, pure_ok] at h
    cases h
    intro y hy
    cases hy
  | cons x xs ih =>
    intro log ys l' h
    rw [mapML, bind_ok] at h
    obtain ⟨y0, l1, hy0, h⟩ := h
    rw [bind_ok] at h
    obtain ⟨ys', l2, hys, h⟩ := h
    rw [pure_ok] at h
    cases h
    intro y hy
    cases hy with
    | head => exact ⟨x, log, l1, List.mem_cons_self .., hy0⟩
    | tail _ hmem =>
      obtain ⟨x', l1', r1', hx', hf'⟩ := ih hys y hmem
      exact ⟨x', l1', r1', List.mem_cons_of_mem _ hx', hf'⟩

/-! ## Association-list lemmas -/

theorem lookup_setKey (d : List (String × Val)) (k k' : String) (v : Val) :
    lookupKey (setKey d k v) k' = if k = k' then some v else lookupKey d k' := by
  induction d with
  | nil =>
    by_cases hk : k = k' <;> simp [setKey, lookupKey, hk]
  | cons kv rest ih =>
    obtain ⟨k0, v0⟩ := kv
    by_cases h0 : k0 = k
    · subst h0
      by_cases hk : k0 = k' <;> simp [setKey, lookupKey, hk]
    · by_cases hk : k0 = k'
      · subst hk
        have hkk' : ¬ k = k0 := fun hc => h0 hc.symm
        simp [setKey, lookupKey, h0, hkk', ih]
      · simp [setKey, lookupKey, h0, hk, ih]

theorem setKey_fst (d : List (String × Val)) (k : String) (v : Val) :
    (setKey d k v).map Prod.fst =
      if k ∈ d.map Prod.fst then d.map Prod.fst else d.map Prod.fst ++ [k] := by
  induction d with
  | nil => simp [setKey]
  | cons kv rest ih =>
    obtain ⟨k0, v0⟩ := kv
    by_cases h0 : k0 = k
    · subst h0
      simp [setKey]
    · have hk0 : ¬ k = k0 := fun hc => h0 hc.symm
      simp only [setKey, h0, if_false, List.map_cons, ih, List.mem_cons, hk0, false_or]
      split <;> simp

theorem setKey_keys_nodup {d : List (String × Val)} (k : String) (v : Val)
    (h : (d.map Prod.fst).Nodup) : ((setKey d k v).map Prod.fst).Nodup := by
  rw [setKey_fst]
  split
  · exact h
  · rename_i hnot
    simp [List.nodup_append, h, hnot]

theorem dictFold_keys_nodup (pairs : List (String × Val)) :
    ∀ {init : List (String × Val)}, (init.map Prod.fst).Nodup →
      (((pairs.foldl (fun d kv => setKey d kv.1 kv.2) init)).map Prod.fst).Nodup := by
  induction pairs with
  | nil => intro init h; simpa using h
  | cons kv rest ih =>
    intro init h
    exact ih (setKey_keys_nodup kv.1 kv.2 h)

/-! ## Regex-model facts -/

theorem tagSearch_ne_nil {tags : List (List Char)} {l : List Char}
    (h : tagSearch tags l = true) : l ≠ [] := by
  intro hl
  subst hl
  simp [tagSearch] at h

theorem runMatches_ne_empty {s : String} (h : runMatches s = true) : s ≠ "" := by
  intro hs
  subst hs
  simp [runMatches, tagSearch] at h

/-! ## Claim C3 -/

/-- Claim C3: the spec says an empty ENA search response body yields an
empty list and resolution continues.  In the code, `cached_get` calls
`sys.exit(1)` on any empty body before `search_ena_study_runs` can reach
its own `return []` branch, so an empty search result terminates the
process; the empty-list outcome is reachable only for a non-empty
header-only body. -/
theorem empty_search_body_exits :
    (search_ena_study_runs searchEnv "SRP1").run = .error (.sysExit 1) ∧
    (search_ena_study_runs searchEnv "SRP2").run =
      .ok ([], [Req.enaSearch (.studyRuns "SRP2")]) := ⟨rfl, rfl⟩

/-! ## Claim C4 -/

/-- Claim C4: DOI tier 3 is meant to group resolved runs into synthetic
study records keyed by study accession.  In the code, `parse_run` stores
`study` as a plain accession string, and the grouping loop calls
`run['study'].copy()`, which raises `AttributeError` on a string; the
evaluation shows `ffq_doi` aborting on the tier-3 path, the resolved
run's `study` being the string `SRP1`, and the grouping loop itself
failing on that run. -/
theorem doi_tier3_crashes_on_string_study :
    (ffq_doi doiEnv "10.1000/X").run = .error .attributeError ∧
    resolvedKey (ffq_run doiEnv "SRR1") "study" = some (some (Val.str "SRP1")) ∧
    groupRunsByStudy [resolvedVal (ffq_run doiEnv "SRR1")] = .error .attributeError :=
  ⟨rfl, rfl, rfl⟩

/-! ## Claim C1, counterexample -/

/-- Claim C1 counterexample: resolving a sample at depth exactly 1
returns a record that still carries the `experiments` key (bound to the
raw experiment accession string from the sample's own XML), so the
children key is not "entirely absent" for the sample type; only the
sample's own record is fetched. -/
theorem depth_one_sample_keeps_experiments_key :
    resolvedKey (ffq_sample resEnv "SRS1" (some 1)) "experiments" =
      some (some (Val.str "SRX1")) ∧
    resolvedLog (ffq_sample resEnv "SRS1" (some 1)) = [Req.enaXml "SRS1"] := ⟨rfl, rfl⟩

/-! ## Claim C2, counterexample -/

/-- Claim C2 counterexample: a sample whose record lists the experiment
accessions `SRX1,SRX1` resolves (at depth 2) to an `experiments` value
that is a Python list of one-entry dicts — not a mapping — and the
duplicate accession yields two list entries instead of collapsing. -/
theorem sample_multi_experiments_is_list :
    (resolvedKey (ffq_sample resEnv "SRS2" (some 2)) "experiments").map
      (fun o => o.map Val.isDict) = some (some false) ∧
    (resolvedKey (ffq_sample resEnv "SRS2" (some 2)) "experiments").map
      (fun o => o.map Val.listLen) = some (some (some 2)) := ⟨rfl, rfl⟩

/-! ## Claim C5, counterexample -/

/-- Claim C5 counterexample: the FASTQ manifest row has url, checksum and
size all non-empty, yet the `ENA-SUBMITTED-FILES` entry is still
consulted and its BAM file is appended to the manifest — the submitted
path is not a fallback taken "only when the FASTQ fields are all
empty". -/
theorem submitted_files_added_despite_fastq :
    parse_tsv (manifestEnv.urlText "fq").text =
      .ok [[("fastq_ftp", "h/SRR5_1.fastq.gz"), ("fastq_md5", "md1"),
            ("fastq_bytes", "100")]] ∧
    Except.map (fun p => p.1.map (fun f => f.get? "filetype"))
        ((get_files_metadata_from_run manifestEnv manifestSoup).run) =
      .ok [some (Val.str "fastq"), some (Val.str "bam")] := ⟨rfl, rfl⟩

/-! ## Claim C6, counterexample -/

/-- Claim C6 counterexample: a run record whose XML has an empty `TITLE`,
an empty `EXPERIMENT_REF` accession attribute, and study/sample resolved
through the ENA-search fallback to empty column values resolves
successfully with empty `title`, `experiment`, `study` and `sample`
fields, refuting the claim that these are always non-empty. -/
theorem run_record_fields_can_be_empty :
    resolvedKey (ffq_run degenerateRunEnv "SRR6") "title" = some (some (Val.str "")) ∧
    resolvedKey (ffq_run degenerateRunEnv "SRR6") "experiment" =
      some (some (Val.str "")) ∧
    resolvedKey (ffq_run degenerateRunEnv "SRR6") "study" = some (some (Val.str "")) ∧
    resolvedKey (ffq_run degenerateRunEnv "SRR6") "sample" = some (some (Val.str "")) :=
  ⟨rfl, rfl, rfl, rfl⟩

/-! ## Stage-shape lemmas for the resolvers -/

theorem ncbi_search_ok {env : Env} {db term : String} {log : List Req}
    {r : List String × List Req} :
    ncbi_search env db term log = .ok r ↔
      ¬ 400 ≤ (env.ncbiSearchResp db term).status ∧
      r = (pySorted (env.ncbiSearchResp db term).payload,
           log ++ [Req.ncbiSearch db term]) := by
  unfold ncbi_search
  rw [bind_ok]
  constructor
  · rintro ⟨a, l1, hj, h⟩
    rw [httpJson_ok] at hj
    obtain ⟨h1, hj⟩ := hj
    obtain ⟨rfl, rfl⟩ := Prod.mk.injEq .. ▸ hj
    rw [pure_ok] at h
    exact ⟨h1, h⟩
  · rintro ⟨h1, hr⟩
    refine ⟨(env.ncbiSearchResp db term).payload, log ++ [Req.ncbiSearch db term],
      httpJson_ok.mpr ⟨h1, rfl⟩, ?_⟩
    rw [pure_ok]
    exact hr

theorem geo_suppl_after (env : Env) (acc g link : String) {log : List Req}
    {r : List Val × List Req}
    (h : (logReq (Req.geoFtp g acc) >>= fun _ =>
          (match env.geoFtp g acc with
           | none => (pure [] : M (List Val))
           | some entries =>
             match supplRecords acc link entries with
             | some supp => pure supp
             | none => pure [])) log = .ok r) :
    ∃ supp, r = (supp, log ++ [Req.geoFtp g acc]) := by
  rw [bind_ok] at h
  obtain ⟨u, l2, hlog, h⟩ := h
  rw [logReq_ok] at hlog
  obtain ⟨rfl, rfl⟩ := Prod.mk.injEq .. ▸ hlog
  cases hftp : env.geoFtp g acc with
  | none =>
    rw [hftp] at h
    exact ⟨[], (Except.ok.inj h).symm⟩
  | some entries =>
    rw [hftp] at h
    replace h : (match supplRecords acc link entries with
        | some supp => (pure supp : M (List Val))
        | none => pure []) (log ++ [Req.geoFtp g acc]) = .ok r := h
    cases hsup : supplRecords acc link entries with
    | none =>
      rw [hsup] at h
      exact ⟨[], (Except.ok.inj h).symm⟩
    | some supp =>
      rw [hsup] at h
      exact ⟨supp, (Except.ok.inj h).symm⟩

theorem geo_to_suppl_shape {env : Env} {acc g : String} {log : List Req}
    {r : List Val × List Req}
    (hg : g = "GSM" ∨ g = "GSE") (h : geo_to_suppl env acc g log = .ok r) :
    ∃ supp, r = (supp, log ++ [Req.geoFtp g acc]) := by
  unfold geo_to_suppl at h
  rcases hg with rfl | rfl
  · rw [if_pos rfl] at h
    rw [bind_ok] at h
    obtain ⟨link, l1, hlink, h⟩ := h
    rw [pure_ok] at hlink
    obtain ⟨rfl, rfl⟩ := Prod.mk.injEq .. ▸ hlink
    exact geo_suppl_after env _ _ _ h
  · rw [if_neg (show ¬("GSE" : String) = "GSM" by decide), if_pos rfl] at h
    rw [bind_ok] at h
    obtain ⟨link, l1, hlink, h⟩ := h
    rw [pure_ok] at hlink
    obtain ⟨rfl, rfl⟩ := Prod.mk.injEq .. ▸ hlink
    exact geo_suppl_after env _ _ _ h

theorem get_gsm_search_json_shape {env : Env} {acc : String} {log : List Req}
    {r : Val × List Req} (h : get_gsm_search_json env acc log = .ok r) :
    ∃ geo_id, r = (Val.dict [("accession", .str acc), ("geo_id", .str geo_id)],
      log ++ [Req.ncbiSearch "gds" acc]) := by
  unfold get_gsm_search_json at h
  rw [bind_ok] at h
  obtain ⟨geo, l1, hsearch, h⟩ := h
  rw [ncbi_search_ok] at hsearch
  obtain ⟨-, hsearch⟩ := hsearch
  obtain ⟨rfl, rfl⟩ := Prod.mk.injEq .. ▸ hsearch
  cases hgl : (pySorted (env.ncbiSearchResp "gds" acc).payload).getLast? with
  | some gid =>
    rw [hgl] at h
    exact ⟨gid, (Except.ok.inj h).symm⟩
  | none =>
    rw [hgl] at h
    exact absurd h throw_not_ok

theorem gsm_to_platform_shape {env : Env} {acc : String} {log : List Req}
    {r : Val × List Req} (h : gsm_to_platform env acc log = .ok r) :
    r = (Val.dict [], log ++ [Req.ncbiSearch "gds" acc]) ∨
    ∃ p a t, r = (Val.dict [("platform",
        Val.dict [("accession", Val.str a), ("title", Val.str t)])],
      log ++ [Req.ncbiSearch "gds" acc, Req.gdsSummary p]) := by
  unfold gsm_to_platform at h
  rw [bind_ok] at h
  obtain ⟨ids, l1, hsearch, h⟩ := h
  rw [ncbi_search_ok] at hsearch
  obtain ⟨-, hsearch⟩ := hsearch
  obtain ⟨rfl, rfl⟩ := Prod.mk.injEq .. ▸ hsearch
  cases hids : pySorted (env.ncbiSearchResp "gds" acc).payload with
  | nil =>
    rw [hids] at h
    exact absurd h throw_not_ok
  | cons pid rest =>
    rw [hids] at h
    replace h : (if "1".data.isPrefixOf pid.data = true then
        (ncbi_summary_gds env pid >>= fun summary =>
          pure (Val.dict [("platform", Val.dict
            [("accession", Val.str summary.accession),
             ("title", Val.str summary.title)])]))
        else pure (Val.dict []))
        (log ++ [Req.ncbiSearch "gds" acc]) = .ok r := h
    by_cases hpre : "1".data.isPrefixOf pid.data = true
    · rw [if_pos hpre] at h
      rw [bind_ok] at h
      obtain ⟨summary, l2, hsum, h⟩ := h
      unfold ncbi_summary_gds at hsum
      rw [httpJson_ok] at hsum
      obtain ⟨-, hsum⟩ := hsum
      obtain ⟨rfl, rfl⟩ := Prod.mk.injEq .. ▸ hsum
      rw [pure_ok] at h
      exact Or.inr ⟨pid, _, _, by simpa using h⟩
    · rw [if_neg hpre] at h
      exact Or.inl (Except.ok.inj h).symm

theorem parse_study_shape {soup : Soup} {st : Val} (h : parse_study soup = .ok st) :
    ∃ a t ab, st = Val.dict [("accession", Val.str a), ("title", Val.str t),
      ("abstract", Val.str ab)] := by
  unfold parse_study at h
  split at h
  · cases h
  · split at h
    · cases h
    · exact ⟨_, _, _, (Except.ok.inj h).symm⟩

theorem parse_sample_shape {soup : Soup} {st : Val} (h : parse_sample soup = .ok st) :
    ∃ a t o attrs e, st = Val.dict [("accession", Val.str a), ("title", Val.str t),
      ("organism", Val.str o), ("attributes", attrs), ("experiments", Val.str e)] := by
  unfold parse_sample at h
  split at h
  · cases h
  · split at h
    · cases h
    · split at h
      · cases h
      · exact ⟨_, _, _, _, _, (Except.ok.inj h).symm⟩

theorem parse_gse_search_shape {doc : GseSearchDoc} {st : Val}
    (h : parse_gse_search doc = .ok st) :
    ∃ a g, st = Val.dict [("accession", Val.str a), ("geo_id", Val.str g)] := by
  unfold parse_gse_search at h
  split at h
  · exact ⟨_, _, (Except.ok.inj h).symm⟩
  · cases h

theorem lookup_filter_self (d : List (String × Val)) (k : String) :
    lookupKey (d.filter (fun kv => kv.1 ≠ k)) k = none := by
  induction d with
  | nil => rfl
  | cons kv rest ih =>
    obtain ⟨k0, v0⟩ := kv
    rw [List.filter_cons]
    by_cases hk : k0 = k
    · rw [show (decide ¬((k0, v0).1 = k)) = false by simp [hk]]
      simpa using ih
    · rw [show (decide ¬((k0, v0).1 = k)) = true by simp [hk]]
      simp only [if_true]
      rw [lookupKey, if_neg hk]
      exact ih

theorem lookup_filter_ne (d : List (String × Val)) (k k' : String) (hne : k' ≠ k) :
    lookupKey (d.filter (fun kv => kv.1 ≠ k)) k' = lookupKey d k' := by
  induction d with
  | nil => rfl
  | cons kv rest ih =>
    obtain ⟨k0, v0⟩ := kv
    rw [List.filter_cons]
    by_cases hk : k0 = k
    · rw [show (decide ¬((k0, v0).1 = k)) = false by simp [hk]]
      have hne0 : ¬ k0 = k' := fun hc => hne (hc ▸ hk)
      simp only [Bool.false_eq_true, if_false]
      rw [ih, lookupKey, if_neg hne0]
    · rw [show (decide ¬((k0, v0).1 = k)) = true by simp [hk]]
      simp only [if_true]
      by_cases hk' : k0 = k'
      · rw [lookupKey, if_pos hk', lookupKey, if_pos hk']
      · rw [lookupKey, if_neg hk', lookupKey, if_neg hk', ih]

/-! ## Depth-1 behaviour of each resolver -/

theorem depth_one_study_shape {env : Env} {acc : String} {v : Val} {log : List Req}
    (h : (ffq_study env acc (some 1)).run = .ok (v, log)) :
    log = [Req.enaXml acc] ∧ v.get? "samples" = none := by
  rw [run_def] at h
  unfold ffq_study at h
  rw [bind_ok] at h
  obtain ⟨soup, l1, hx, h⟩ := h
  rw [get_xml_ok] at hx
  obtain ⟨-, -, hx⟩ := hx
  injection hx with hs hl
  subst hs hl
  rw [bind_ok] at h
  obtain ⟨st, l2, hst, h⟩ := h
  rw [liftE_ok] at hst
  obtain ⟨stv, hp, hpr⟩ := hst
  injection hpr with hst2 hl2
  subst hst2 hl2
  rw [if_neg (by simp)] at h
  rw [pure_ok] at h
  injection h with hv hlog
  subst hv hlog
  obtain ⟨a, t, ab, hsh⟩ := parse_study_shape hp
  subst hsh
  exact ⟨by simp, by simp [Val.get?, lookupKey]⟩

theorem parse_experiment_depth_one {env : Env} {soup : Soup} {log : List Req}
    {r : Val × List Req} (h : parse_experiment_with_run env soup (some 1) log = .ok r) :
    ∃ a t p i, r = (Val.dict [("accession", Val.str a), ("title", Val.str t),
      ("platform", Val.str p), ("instrument", Val.str i)], log) := by
  unfold parse_experiment_with_run at h
  cases hfind : soup.primaryIds.find? experimentMatches with
  | none => rw [hfind] at h; cases h
  | some t0 =>
    rw [hfind] at h
    simp only [] at h
    rw [bind_ok] at h
    obtain ⟨a1, l1, hacc, h⟩ := h
    rw [pure_ok] at hacc
    obtain ⟨rfl, rfl⟩ := Prod.mk.injEq .. ▸ hacc
    cases htit : soup.title with
    | none => rw [htit] at h; cases h
    | some tt =>
      rw [htit] at h
      simp only [] at h
      rw [bind_ok] at h
      obtain ⟨t1, l2, htitle, h⟩ := h
      rw [pure_ok] at htitle
      obtain ⟨rfl, rfl⟩ := Prod.mk.injEq .. ▸ htitle
      cases him : soup.instrumentModel with
      | none => rw [him] at h; cases h
      | some pr =>
        rw [him] at h
        simp only [] at h
        rw [bind_ok] at h
        obtain ⟨pi, l3, hpi, h⟩ := h
        rw [pure_ok] at hpi
        obtain ⟨rfl, rfl⟩ := Prod.mk.injEq .. ▸ hpi
        rw [if_neg (by decide)] at h
        rw [pure_ok] at h
        exact ⟨_, _, _, _, h⟩

theorem depth_one_experiment_shape {env : Env} {acc : String} {v : Val} {log : List Req}
    (h : (ffq_experiment env acc (some 1)).run = .ok (v, log)) :
    log = [Req.enaXml acc] ∧ v.get? "runs" = none := by
  rw [run_def] at h
  unfold ffq_experiment at h
  rw [bind_ok] at h
  obtain ⟨soup, l1, hx, h⟩ := h
  rw [get_xml_ok] at hx
  obtain ⟨-, -, hx⟩ := hx
  injection hx with hs hl
  subst hs hl
  obtain ⟨a, t, p, i, hr⟩ := parse_experiment_depth_one h
  injection hr with hv hlog
  subst hv hlog
  exact ⟨by simp, by simp [Val.get?, lookupKey]⟩

theorem depth_one_sample_shape {env : Env} {acc : String} {v : Val} {log : List Req}
    (h : (ffq_sample env acc (some 1)).run = .ok (v, log)) :
    log = [Req.enaXml acc] ∧ ∃ e, v.get? "experiments" = some (Val.str e) := by
  rw [run_def] at h
  unfold ffq_sample at h
  rw [bind_ok] at h
  obtain ⟨soup, l1, hx, h⟩ := h
  rw [get_xml_ok] at hx
  obtain ⟨-, -, hx⟩ := hx
  injection hx with hs hl
  subst hs hl
  rw [bind_ok] at h
  obtain ⟨st, l2, hst, h⟩ := h
  rw [liftE_ok] at hst
  obtain ⟨stv, hp, hpr⟩ := hst
  injection hpr with hst2 hl2
  subst hst2 hl2
  rw [if_neg (by simp)] at h
  rw [pure_ok] at h
  injection h with hv hlog
  subst hv hlog
  obtain ⟨a, t, o, attrs, e, hsh⟩ := parse_sample_shape hp
  subst hsh
  exact ⟨by simp, e, by simp [Val.get?, lookupKey]⟩

theorem depth_one_gse_shape {env : Env} {acc : String} {v : Val} {log : List Req}
    (h : (ffq_gse env acc (some 1)).run = .ok (v, log)) :
    log = [Req.gseSearch acc, Req.geoFtp "GSE" acc] ∧ v.get? "geo_samples" = none := by
  rw [run_def] at h
  unfold ffq_gse at h
  rw [bind_ok] at h
  obtain ⟨doc, l1, hdoc, h⟩ := h
  rw [cachedGetDoc_ok] at hdoc
  obtain ⟨-, -, hdoc⟩ := hdoc
  injection hdoc with hd hl
  subst hd hl
  rw [bind_ok] at h
  obtain ⟨gse0, l2, hgse, h⟩ := h
  rw [liftE_ok] at hgse
  obtain ⟨gsev, hpg, hpr⟩ := hgse
  injection hpr with hg hl2
  subst hg hl2
  obtain ⟨a, g, hsh⟩ := parse_gse_search_shape hpg
  subst hsh
  rw [bind_ok] at h
  obtain ⟨supp, l3, hsupp, h⟩ := h
  obtain ⟨supp', heq⟩ := geo_to_suppl_shape (Or.inr rfl) hsupp
  injection heq with hs hl3
  subst hs hl3
  simp only [] at h
  by_cases hlen : 0 < supp.length
  · rw [if_pos hlen] at h
    rw [bind_ok] at h
    obtain ⟨popped, l4, hpop, h⟩ := h
    rw [liftE_ok] at hpop
    obtain ⟨pv, hpk, hpr2⟩ := hpop
    injection hpr2 with hp hl4
    subst hp hl4
    simp only [valUpdate, setKey, popKey, lookupKey] at hpk
    simp at hpk
    rw [if_neg (by simp)] at h
    rw [pure_ok] at h
    injection h with hv hlog
    subst hv hlog
    rw [← hpk]
    exact ⟨by simp, by simp [Val.get?, lookupKey]⟩
  · rw [if_neg hlen] at h
    rw [bind_ok] at h
    obtain ⟨popped, l4, hpop, h⟩ := h
    rw [liftE_ok] at hpop
    obtain ⟨pv, hpk, hpr2⟩ := hpop
    injection hpr2 with hp hl4
    subst hp hl4
    simp only [popKey, lookupKey] at hpk
    simp at hpk
    rw [if_neg (by simp)] at h
    rw [pure_ok] at h
    injection h with hv hlog
    subst hv hlog
    rw [← hpk]
    exact ⟨by simp, by simp [Val.get?, lookupKey]⟩

theorem depth_one_gsm_shape {env : Env} {acc : String} {v : Val} {log : List Req}
    (h : (ffq_gsm env acc (some 1)).run = .ok (v, log)) :
    (log = [Req.ncbiSearch "gds" acc, Req.geoFtp "GSM" acc, Req.ncbiSearch "gds" acc] ∨
     ∃ p, log = [Req.ncbiSearch "gds" acc, Req.geoFtp "GSM" acc,
       Req.ncbiSearch "gds" acc, Req.gdsSummary p]) ∧
    v.get? "samples" = none := by
  rw [run_def] at h
  unfold ffq_gsm at h
  rw [bind_ok] at h
  obtain ⟨gsm0, l1, hg, h⟩ := h
  obtain ⟨gid, heq⟩ := get_gsm_search_json_shape hg
  injection heq with hg0 hl1
  subst hg0 hl1
  rw [bind_ok] at h
  obtain ⟨supp, l2, hsupp, h⟩ := h
  obtain ⟨supp', heq2⟩ := geo_to_suppl_shape (Or.inl rfl) hsupp
  injection heq2 with hs hl2
  subst hs hl2
  simp only [] at h
  rw [bind_ok] at h
  obtain ⟨plat, l3, hplat, h⟩ := h
  rcases gsm_to_platform_shape hplat with hpl | ⟨p, a', t', hpl⟩ <;>
    (injection hpl with hp hl3; subst hp hl3;
     simp only [] at h;
     rw [if_neg (by simp)] at h;
     rw [pure_ok] at h;
     injection h with hv hlog;
     subst hv hlog)
  · refine ⟨Or.inl (by simp), ?_⟩
    by_cases hse : supp.isEmpty = true <;>
      simp [hse, valUpdate, Val.get?, setKey, lookupKey]
  · refine ⟨Or.inr ⟨p, by simp⟩, ?_⟩
    by_cases hse : supp.isEmpty = true <;>
      simp [hse, valUpdate, Val.get?, setKey, lookupKey]

/-! ## Claim C1 -/

/-- Claim C1 (amended): resolving with depth exactly 1 returns the
entity's own fields and issues no registry request for any child's
record — the trace contains only the entity's own lookups (its XML/search
record, its own supplementary-file listing, its own platform summary).
The children key (`samples`/`runs`/`geo_samples`) is absent for studies,
experiments, GEO series and GEO samples; for a sample, however, the
record retains an `experiments` key bound to the raw experiment accession
string parsed from the sample's own XML (no child record is fetched for
it). -/
theorem depth_one_returns_own_fields :
    (∀ (env : Env) (acc : String) (v : Val) (log : List Req),
        (ffq_study env acc (some 1)).run = .ok (v, log) →
        log = [Req.enaXml acc] ∧ v.get? "samples" = none) ∧
    (∀ (env : Env) (acc : String) (v : Val) (log : List Req),
        (ffq_experiment env acc (some 1)).run = .ok (v, log) →
        log = [Req.enaXml acc] ∧ v.get? "runs" = none) ∧
    (∀ (env : Env) (acc : String) (v : Val) (log : List Req),
        (ffq_gse env acc (some 1)).run = .ok (v, log) →
        log = [Req.gseSearch acc, Req.geoFtp "GSE" acc] ∧
        v.get? "geo_samples" = none) ∧
    (∀ (env : Env) (acc : String) (v : Val) (log : List Req),
        (ffq_gsm env acc (some 1)).run = .ok (v, log) →
        (log = [Req.ncbiSearch "gds" acc, Req.geoFtp "GSM" acc,
            Req.ncbiSearch "gds" acc] ∨
         ∃ p, log = [Req.ncbiSearch "gds" acc, Req.geoFtp "GSM" acc,
            Req.ncbiSearch "gds" acc, Req.gdsSummary p]) ∧
        v.get? "samples" = none) ∧
    (∀ (env : Env) (acc : String) (v : Val) (log : List Req),
        (ffq_sample env acc (some 1)).run = .ok (v, log) →
        log = [Req.enaXml acc] ∧ ∃ e, v.get? "experiments" = some (Val.str e)) :=
  ⟨fun _ _ _ _ => depth_one_study_shape,
   fun _ _ _ _ => depth_one_experiment_shape,
   fun _ _ _ _ => depth_one_gse_shape,
   fun _ _ _ _ => depth_one_gsm_shape,
   fun _ _ _ _ => depth_one_sample_shape⟩

/-- Witness for claim C1: the depth-1 behaviour instantiated on the
concrete registry fixture for each of the five entity types. -/
theorem depth_one_returns_own_fields_witness :
    (resolvedLog (ffq_study resEnv "SRP1" (some 1)) = [Req.enaXml "SRP1"] ∧
      (resolvedVal (ffq_study resEnv "SRP1" (some 1))).get? "samples" = none) ∧
    (resolvedLog (ffq_experiment resEnv "SRX1" (some 1)) = [Req.enaXml "SRX1"] ∧
      (resolvedVal (ffq_experiment resEnv "SRX1" (some 1))).get? "runs" = none) ∧
    (resolvedLog (ffq_gse resEnv "GSE1" (some 1)) =
        [Req.gseSearch "GSE1", Req.geoFtp "GSE" "GSE1"] ∧
      (resolvedVal (ffq_gse resEnv "GSE1" (some 1))).get? "geo_samples" = none) ∧
    ((resolvedLog (ffq_gsm resEnv "GSM1" (some 1)) =
        [Req.ncbiSearch "gds" "GSM1", Req.geoFtp "GSM" "GSM1",
         Req.ncbiSearch "gds" "GSM1"] ∨
      ∃ p, resolvedLog (ffq_gsm resEnv "GSM1" (some 1)) =
        [Req.ncbiSearch "gds" "GSM1", Req.geoFtp "GSM" "GSM1",
         Req.ncbiSearch "gds" "GSM1", Req.gdsSummary p]) ∧
      (resolvedVal (ffq_gsm resEnv "GSM1" (some 1))).get? "samples" = none) ∧
    (resolvedLog (ffq_sample resEnv "SRS1" (some 1)) = [Req.enaXml "SRS1"] ∧
      ∃ e, (resolvedVal (ffq_sample resEnv "SRS1" (some 1))).get? "experiments" =
        some (Val.str e)) :=
  ⟨depth_one_returns_own_fields.1 resEnv "SRP1" _ _ (by rfl),
   depth_one_returns_own_fields.2.1 resEnv "SRX1" _ _ (by rfl),
   depth_one_returns_own_fields.2.2.1 resEnv "GSE1" _ _ (by rfl),
   depth_one_returns_own_fields.2.2.2.1 resEnv "GSM1" _ _ (by rfl),
   depth_one_returns_own_fields.2.2.2.2 resEnv "SRS1" _ _ (by rfl)⟩

/-! ## Non-terminal (expanding) behaviour of each resolver -/

theorem mem_setKey {d : List (String × Val)} {k : String} {v : Val}
    {kv : String × Val} (h : kv ∈ setKey d k v) : kv ∈ d ∨ kv = (k, v) := by
  induction d with
  | nil =>
    simp [setKey] at h
    exact Or.inr h
  | cons q qs ih =>
    obtain ⟨q1, q2⟩ := q
    simp only [setKey] at h
    split at h
    · rcases List.mem_cons.mp h with h1 | h1
      · exact Or.inr h1
      · exact Or.inl (List.mem_cons_of_mem _ h1)
    · rcases List.mem_cons.mp h with h1 | h1
      · exact Or.inl (by rw [h1]; exact List.mem_cons_self ..)
      · rcases ih h1 with h2 | h2
        · exact Or.inl (List.mem_cons_of_mem _ h2)
        · exact Or.inr h2

theorem dictFold_mem {pairs : List (String × Val)} :
    ∀ {init : List (String × Val)} {kv : String × Val},
      kv ∈ pairs.foldl (fun d p => setKey d p.1 p.2) init →
      kv ∈ init ∨ kv ∈ pairs := by
  induction pairs with
  | nil => intro init kv h; exact Or.inl h
  | cons p rest ih =>
    intro init kv h
    rcases ih h with hin | hin
    · rcases mem_setKey hin with h1 | h1
      · exact Or.inl h1
      · exact Or.inr (by rw [h1]; exact List.mem_cons_self ..)
    · exact Or.inr (List.mem_cons_of_mem _ hin)

theorem nonterminal_study_samples_dict {env : Env} {acc : String} {lvl : Option Int}
    {v : Val} {log : List Req} (hne : lvl ≠ some 1)
    (h : (ffq_study env acc lvl).run = .ok (v, log)) :
    ∃ d, v.get? "samples" = some (Val.dict d) ∧ (d.map Prod.fst).Nodup ∧
      ∀ kv ∈ d, kv.2.get? "accession" = some (Val.str kv.1) := by
  rw [run_def] at h
  unfold ffq_study at h
  rw [bind_ok] at h
  obtain ⟨soup, l1, hx, h⟩ := h
  rw [get_xml_ok] at hx
  obtain ⟨-, -, hx⟩ := hx
  injection hx with hs hl
  subst hs hl
  rw [bind_ok] at h
  obtain ⟨st, l2, hst, h⟩ := h
  rw [liftE_ok] at hst
  obtain ⟨stv, hp, hpr⟩ := hst
  injection hpr with hst2 hl2
  subst hst2 hl2
  rw [if_pos hne] at h
  try simp only [] at h
  rw [bind_ok] at h
  obtain ⟨sids, l3, hsids, h⟩ := h
  cases sids with
  | none => cases h
  | some sample_ids =>
    try simp only [] at h
    rw [bind_ok] at h
    obtain ⟨samples, l4, hsamples, h⟩ := h
    rw [bind_ok] at h
    obtain ⟨pairs, l5, hpairs, h⟩ := h
    rw [pure_ok] at h
    injection h with hv hlog
    subst hv hlog
    obtain ⟨a, t, ab, hsh⟩ := parse_study_shape hp
    subst hsh
    refine ⟨pairs.foldl (fun d kv => setKey d kv.1 kv.2) [], ?_, ?_, ?_⟩
    · simp [valUpdate, Val.get?, setKey, lookupKey]
    · exact dictFold_keys_nodup pairs (by simp)
    · intro kv hkv
      rcases dictFold_mem hkv with hin | hin
      · cases hin
      · obtain ⟨x, lx, rx, hx, hf⟩ := mapML_ok_mem hpairs kv hin
        cases hacc2 : x.get? "accession" with
        | none => rw [hacc2] at hf; cases hf
        | some w =>
          rw [hacc2] at hf
          cases w with
          | str aw =>
            rw [pure_ok] at hf
            obtain ⟨rfl, rfl⟩ := Prod.mk.injEq .. ▸ hf
            simpa using hacc2
          | nat n => cases hf
          | bool b => cases hf
          | pynone => cases hf
          | list l => cases hf
          | dict d => cases hf

theorem expanding_experiment_runs_dict {env : Env} {acc : String} {lvl : Option Int}
    {v : Val} {log : List Req} (hexp : levelExpands lvl = true)
    (h : (ffq_experiment env acc lvl).run = .ok (v, log)) :
    ∃ d, v.get? "runs" = some (Val.dict d) ∧ (d.map Prod.fst).Nodup := by
  rw [run_def] at h
  unfold ffq_experiment at h
  rw [bind_ok] at h
  obtain ⟨soup, l1, hx, h⟩ := h
  unfold parse_experiment_with_run at h
  cases hfind : soup.primaryIds.find? experimentMatches with
  | none => rw [hfind] at h; cases h
  | some t0 =>
    rw [hfind] at h
    try simp only [] at h
    rw [bind_ok] at h
    obtain ⟨a1, la, hacc, h⟩ := h
    cases htit : soup.title with
    | none => rw [htit] at h; cases h
    | some tt =>
      rw [htit] at h
      try simp only [] at h
      rw [bind_ok] at h
      obtain ⟨t1, lt, htitle, h⟩ := h
      cases him : soup.instrumentModel with
      | none => rw [him] at h; cases h
      | some pr =>
        rw [him] at h
        try simp only [] at h
        rw [bind_ok] at h
        obtain ⟨pi, lp, hpi, h⟩ := h
        rw [if_pos hexp] at h
        rw [bind_ok] at h
        obtain ⟨runs, lr, hruns, h⟩ := h
        rw [bind_ok] at h
        obtain ⟨runVals, lv, hrv, h⟩ := h
        try simp only [] at h
        rw [pure_ok] at h
        injection h with hv hlog
        subst hv hlog
        refine ⟨runVals.foldl (fun d kv => setKey d kv.1 kv.2) [], ?_, ?_⟩
        · rw [pure_ok] at hacc htitle hpi
          obtain ⟨rfl, rfl⟩ := Prod.mk.injEq .. ▸ hacc
          obtain ⟨rfl, rfl⟩ := Prod.mk.injEq .. ▸ htitle
          obtain ⟨rfl, rfl⟩ := Prod.mk.injEq .. ▸ hpi
          simp [Val.get?, setKey, lookupKey]
        · exact dictFold_keys_nodup runVals (by simp)

theorem nonterminal_gse_geo_samples_dict {env : Env} {acc : String} {lvl : Option Int}
    {v : Val} {log : List Req} (hne : lvl ≠ some 1)
    (h : (ffq_gse env acc lvl).run = .ok (v, log)) :
    ∃ d, v.get? "geo_samples" = some (Val.dict d) ∧ (d.map Prod.fst).Nodup := by
  rw [run_def] at h
  unfold ffq_gse at h
  rw [bind_ok] at h
  obtain ⟨doc, l1, hdoc, h⟩ := h
  rw [bind_ok] at h
  obtain ⟨gse0, l2, hgse, h⟩ := h
  rw [liftE_ok] at hgse
  obtain ⟨gsev, hpg, hpr⟩ := hgse
  injection hpr with hg hl2
  subst hg hl2
  obtain ⟨a, g, hsh⟩ := parse_gse_search_shape hpg
  subst hsh
  rw [bind_ok] at h
  obtain ⟨supp, l3, hsupp, h⟩ := h
  try simp only [] at h
  by_cases hlen : 0 < supp.length
  all_goals (
    first
      | rw [if_pos hlen] at h
      | rw [if_neg hlen] at h
    rw [bind_ok] at h
    obtain ⟨popped, l4, hpop, h⟩ := h
    rw [liftE_ok] at hpop
    obtain ⟨pv, hpk, hpr2⟩ := hpop
    injection hpr2 with hpd hl4
    subst hpd hl4
    simp only [valUpdate, setKey, popKey, lookupKey] at hpk
    simp at hpk
    rw [if_pos hne] at h
    try simp only [] at h
    rw [bind_ok] at h
    obtain ⟨gsm_ids, l5, hids, h⟩ := h
    rw [bind_ok] at h
    obtain ⟨gsms, l6, hgsms, h⟩ := h
    rw [bind_ok] at h
    obtain ⟨pairs, l7, hpairs, h⟩ := h
    rw [pure_ok] at h
    injection h with hv hlog
    subst hv hlog
    rw [← hpk]
    exact ⟨pairs.foldl (fun d kv => setKey d kv.1 kv.2) [],
      by simp [valUpdate, Val.get?, setKey, lookupKey],
      dictFold_keys_nodup pairs (by simp)⟩)

theorem popKey_dict_ok {d : List (String × Val)} {k : String} {pv : Val × Val}
    (h : popKey (Val.dict d) k = .ok pv) :
    ∃ x, lookupKey d k = some x ∧
      pv = (x, Val.dict (d.filter (fun kv => kv.1 ≠ k))) := by
  unfold popKey at h
  simp only [] at h
  cases hlk : lookupKey d k with
  | none => rw [hlk] at h; cases h
  | some x =>
    rw [hlk] at h
    exact ⟨x, rfl, (Except.ok.inj h).symm⟩

theorem gsm_expand_tail {env : Env} {gsm1 : Val} {lvl : Option Int} {l : List Req}
    {v : Val} {log : List Req}
    (hd : ∃ d, gsm1 = Val.dict d ∧ lookupKey d "samples" = none)
    (h : ((do
      let popped ← liftE (popKey gsm1 "geo_id")
      let gsm := popped.2
      let geo_id ← match popped.1 with
        | .str s => pure s
        | _ => throwPy .typeError
      let srs ← gsm_id_to_srs env geo_id
      match srs with
      | some srsAcc =>
        if srsAcc ≠ "" then do
          let sample ← ffq_sample env srsAcc (decLevel lvl)
          match sample.get? "accession" with
          | some (Val.str a) => pure (valUpdate gsm "samples" (Val.dict [(a, sample)]))
          | _ => throwPy .typeError
        else pure gsm
      | none => pure gsm) : M Val) l = .ok (v, log)) :
    v.get? "samples" = none ∨
    ∃ a s, v.get? "samples" = some (Val.dict [(a, s)]) := by
  obtain ⟨d, hg, hlk⟩ := hd
  subst hg
  rw [bind_ok] at h
  obtain ⟨popped, l1, hpop, h⟩ := h
  rw [liftE_ok] at hpop
  obtain ⟨pv, hpk, hpr⟩ := hpop
  injection hpr with hpd hl1
  subst hpd hl1
  obtain ⟨x, hx, hpv⟩ := popKey_dict_ok hpk
  subst hpv
  try simp only [] at h
  cases x with
  | str gid =>
    try simp only [] at h
    rw [bind_ok] at h
    obtain ⟨g1, lg, hgid, h⟩ := h
    rw [pure_ok] at hgid
    obtain ⟨rfl, rfl⟩ := Prod.mk.injEq .. ▸ hgid
    rw [bind_ok] at h
    obtain ⟨srs, ls, hsrs, h⟩ := h
    cases srs with
    | none =>
      try simp only [] at h
      rw [pure_ok] at h
      injection h with hv hlog
      subst hv hlog
      refine Or.inl ?_
      simp only [Val.get?]
      rw [lookup_filter_ne d "geo_id" "samples" (by decide)]
      exact hlk
    | some s =>
      try simp only [] at h
      by_cases hs : s = ""
      · rw [if_neg (by simp [hs])] at h
        rw [pure_ok] at h
        injection h with hv hlog
        subst hv hlog
        refine Or.inl ?_
        simp only [Val.get?]
        rw [lookup_filter_ne d "geo_id" "samples" (by decide)]
        exact hlk
      · rw [if_pos (by simpa using hs)] at h
        rw [bind_ok] at h
        obtain ⟨sample, lsm, hsm, h⟩ := h
        cases hacc : sample.get? "accession" with
        | none => rw [hacc] at h; cases h
        | some w =>
          rw [hacc] at h
          cases w with
          | str a =>
            try simp only [] at h
            rw [pure_ok] at h
            injection h with hv hlog
            subst hv hlog
            exact Or.inr ⟨a, sample, by simp [valUpdate, Val.get?, lookup_setKey]⟩
          | nat n => cases h
          | bool b => cases h
          | pynone => cases h
          | list xs => cases h
          | dict dd => cases h
  | nat n => cases h
  | bool b => cases h
  | pynone => cases h
  | list xs => cases h
  | dict dd => cases h

theorem nonterminal_gsm_samples {env : Env} {acc : String} {lvl : Option Int}
    {v : Val} {log : List Req} (hne : lvl ≠ some 1)
    (h : (ffq_gsm env acc lvl).run = .ok (v, log)) :
    v.get? "samples" = none ∨
    ∃ a s, v.get? "samples" = some (Val.dict [(a, s)]) := by
  rw [run_def] at h
  unfold ffq_gsm at h
  rw [bind_ok] at h
  obtain ⟨gsm0, l1, hg, h⟩ := h
  obtain ⟨gid, heq⟩ := get_gsm_search_json_shape hg
  injection heq with hg0 hl1
  subst hg0 hl1
  rw [bind_ok] at h
  obtain ⟨supp, l2, hsupp, h⟩ := h
  try simp only [] at h
  rw [bind_ok] at h
  obtain ⟨plat, l3, hplat, h⟩ := h
  rw [if_pos hne] at h
  try simp only [] at h
  rcases gsm_to_platform_shape hplat with hpl | ⟨p, a', t', hpl⟩ <;>
    (injection hpl with hp hl3; subst hp hl3; try simp only [] at h) <;>
    (refine gsm_expand_tail ?_ h
     by_cases hse : supp.isEmpty = true
     · rw [show (!supp.isEmpty) = false by simp [hse]]
       rw [if_neg (by simp)]
       exact ⟨_, rfl, by simp [valUpdate, setKey, lookupKey]⟩
     · rw [show (!supp.isEmpty) = true by simp [hse]]
       rw [if_pos rfl]
       exact ⟨_, rfl, by simp [valUpdate, setKey, lookupKey]⟩)

theorem nonterminal_sample_experiments {env : Env} {acc : String} {lvl : Option Int}
    {v : Val} {log : List Req} (hne : lvl ≠ some 1)
    (h : (ffq_sample env acc lvl).run = .ok (v, log)) :
    v.get? "experiments" = some (Val.str "") ∨
    (∃ a e, v.get? "experiments" = some (Val.dict [(a, e)])) ∨
    (∃ xs, v.get? "experiments" = some (Val.list xs) ∧
      ∀ x ∈ xs, ∃ a e, x = Val.dict [(a, e)]) := by
  rw [run_def] at h
  unfold ffq_sample at h
  rw [bind_ok] at h
  obtain ⟨soup, l1, hx, h⟩ := h
  rw [bind_ok] at h
  obtain ⟨st, l2, hst, h⟩ := h
  rw [liftE_ok] at hst
  obtain ⟨stv, hp, hpr⟩ := hst
  injection hpr with hst2 hl2
  subst hst2 hl2
  obtain ⟨a0, t0, o0, attrs0, e0, hsh⟩ := parse_sample_shape hp
  subst hsh
  rw [if_pos hne] at h
  try simp only [] at h
  rw [show (Val.dict [("accession", Val.str a0), ("title", Val.str t0),
      ("organism", Val.str o0), ("attributes", attrs0),
      ("experiments", Val.str e0)]).get? "experiments" = some (Val.str e0)
    from by simp [Val.get?, lookupKey]] at h
  try simp only [] at h
  rw [bind_ok] at h
  obtain ⟨exp_id, l3, hexp, h⟩ := h
  rw [pure_ok] at hexp
  obtain ⟨rfl, rfl⟩ := Prod.mk.injEq .. ▸ hexp
  by_cases he : exp_id = ""
  · rw [if_neg (by simp [he])] at h
    rw [pure_ok] at h
    injection h with hv hlog
    subst hv hlog
    exact Or.inl (by simp [Val.get?, lookupKey, he])
  · rw [if_pos (by simpa using he)] at h
    by_cases hc : strIn "," exp_id = true
    · rw [if_pos hc] at h
      rw [bind_ok] at h
      obtain ⟨exps, l4, hexps, h⟩ := h
      rw [bind_ok] at h
      obtain ⟨entries, l5, hentries, h⟩ := h
      rw [pure_ok] at h
      injection h with hv hlog
      subst hv hlog
      refine Or.inr (Or.inr ⟨entries,
        by simp [valUpdate, Val.get?, setKey, lookupKey], ?_⟩)
      intro x hxm
      obtain ⟨e1, le1, re1, hmem, hf⟩ := mapML_ok_mem hentries x hxm
      cases hacc2 : e1.get? "accession" with
      | none => rw [hacc2] at hf; cases hf
      | some w =>
        rw [hacc2] at hf
        cases w with
        | str aw =>
          rw [pure_ok] at hf
          obtain ⟨rfl, rfl⟩ := Prod.mk.injEq .. ▸ hf
          exact ⟨aw, e1, rfl⟩
        | nat n => cases hf
        | bool b => cases hf
        | pynone => cases hf
        | list xs => cases hf
        | dict dd => cases hf
    · rw [if_neg hc] at h
      rw [bind_ok] at h
      obtain ⟨experiment, l4, hexp2, h⟩ := h
      cases hacc2 : experiment.get? "accession" with
      | none => rw [hacc2] at h; cases h
      | some w =>
        rw [hacc2] at h
        cases w with
        | str aw =>
          try simp only [] at h
          rw [pure_ok] at h
          injection h with hv hlog
          subst hv hlog
          exact Or.inr (Or.inl ⟨aw, experiment,
            by simp [valUpdate, Val.get?, setKey, lookupKey]⟩)
        | nat n => cases h
        | bool b => cases h
        | pynone => cases h
        | list xs => cases h
        | dict dd => cases h

/-! ## Claim C2 -/

/-- Claim C2 (amended): in every non-terminal resolution the children of
a study, experiment, GEO series or GEO sample are aggregated into a dict
keyed by child accession with no duplicate keys (for a study, each entry's
key is the child record's own accession).  For a sample, however, only a
single experiment accession yields a one-entry mapping: when the sample's
record lists several comma-separated experiment accessions the
`experiments` value is a Python list of one-entry dicts, whose duplicate
accessions are not collapsed. -/
theorem nonterminal_children_are_dicts :
    (∀ (env : Env) (acc : String) (lvl : Option Int) (v : Val) (log : List Req),
        lvl ≠ some 1 → (ffq_study env acc lvl).run = .ok (v, log) →
        ∃ d, v.get? "samples" = some (Val.dict d) ∧ (d.map Prod.fst).Nodup ∧
          ∀ kv ∈ d, kv.2.get? "accession" = some (Val.str kv.1)) ∧
    (∀ (env : Env) (acc : String) (lvl : Option Int) (v : Val) (log : List Req),
        levelExpands lvl = true → (ffq_experiment env acc lvl).run = .ok (v, log) →
        ∃ d, v.get? "runs" = some (Val.dict d) ∧ (d.map Prod.fst).Nodup) ∧
    (∀ (env : Env) (acc : String) (lvl : Option Int) (v : Val) (log : List Req),
        lvl ≠ some 1 → (ffq_gse env acc lvl).run = .ok (v, log) →
        ∃ d, v.get? "geo_samples" = some (Val.dict d) ∧ (d.map Prod.fst).Nodup) ∧
    (∀ (env : Env) (acc : String) (lvl : Option Int) (v : Val) (log : List Req),
        lvl ≠ some 1 → (ffq_gsm env acc lvl).run = .ok (v, log) →
        v.get? "samples" = none ∨
        ∃ a s, v.get? "samples" = some (Val.dict [(a, s)])) ∧
    (∀ (env : Env) (acc : String) (lvl : Option Int) (v : Val) (log : List Req),
        lvl ≠ some 1 → (ffq_sample env acc lvl).run = .ok (v, log) →
        v.get? "experiments" = some (Val.str "") ∨
        (∃ a e, v.get? "experiments" = some (Val.dict [(a, e)])) ∨
        (∃ xs, v.get? "experiments" = some (Val.list xs) ∧
          ∀ x ∈ xs, ∃ a e, x = Val.dict [(a, e)])) :=
  ⟨fun _ _ _ _ _ => nonterminal_study_samples_dict,
   fun _ _ _ _ _ => expanding_experiment_runs_dict,
   fun _ _ _ _ _ => nonterminal_gse_geo_samples_dict,
   fun _ _ _ _ _ => nonterminal_gsm_samples,
   fun _ _ _ _ _ => nonterminal_sample_experiments⟩

/-- Witness for claim C2: the non-terminal aggregation shapes
instantiated on the concrete registry fixture at depth 2. -/
theorem nonterminal_children_are_dicts_witness :
    (∃ d, (resolvedVal (ffq_study resEnv "SRP1" (some 2))).get? "samples" =
        some (Val.dict d) ∧ (d.map Prod.fst).Nodup ∧
        ∀ kv ∈ d, kv.2.get? "accession" = some (Val.str kv.1)) ∧
    (∃ d, (resolvedVal (ffq_experiment resEnv "SRX1" (some 2))).get? "runs" =
        some (Val.dict d) ∧ (d.map Prod.fst).Nodup) ∧
    (∃ d, (resolvedVal (ffq_gse resEnv "GSE1" (some 2))).get? "geo_samples" =
        some (Val.dict d) ∧ (d.map Prod.fst).Nodup) ∧
    ((resolvedVal (ffq_gsm resEnv "GSM1" (some 2))).get? "samples" = none ∨
      ∃ a s, (resolvedVal (ffq_gsm resEnv "GSM1" (some 2))).get? "samples" =
        some (Val.dict [(a, s)])) ∧
    ((resolvedVal (ffq_sample resEnv "SRS1" (some 2))).get? "experiments" =
        some (Val.str "") ∨
      (∃ a e, (resolvedVal (ffq_sample resEnv "SRS1" (some 2))).get? "experiments" =
        some (Val.dict [(a, e)])) ∨
      (∃ xs, (resolvedVal (ffq_sample resEnv "SRS1" (some 2))).get? "experiments" =
        some (Val.list xs) ∧ ∀ x ∈ xs, ∃ a e, x = Val.dict [(a, e)])) :=
  ⟨nonterminal_children_are_dicts.1 resEnv "SRP1" (some 2) _ _ (by decide) (by rfl),
   nonterminal_children_are_dicts.2.1 resEnv "SRX1" (some 2) _ _ (by decide) (by rfl),
   nonterminal_children_are_dicts.2.2.1 resEnv "GSE1" (some 2) _ _ (by decide) (by rfl),
   nonterminal_children_are_dicts.2.2.2.1 resEnv "GSM1" (some 2) _ _ (by decide) (by rfl),
   nonterminal_children_are_dicts.2.2.2.2 resEnv "SRS1" (some 2) _ _ (by decide) (by rfl)⟩

/-! ## Claim C5 -/

/-- Claim C5 (amended): file-manifest extraction inspects the
`ENA-FASTQ-FILES` cross-reference first and then unconditionally also
inspects the `ENA-SUBMITTED-FILES` entry — the manifest is the
concatenation of the two contributions, not a fallback chain.  The FASTQ
loop contributes nothing when its URL, checksum or size field is empty,
the submitted loop contributes nothing unless the submitted format
includes `BAM`, and when neither contributes the manifest is the empty
list and resolution succeeds rather than raising. -/
theorem file_manifest_extraction :
    (∀ (env : Env) (soup : Soup) (v : List Val) (log : List Req),
        (get_files_metadata_from_run env soup).run = .ok (v, log) →
        ∃ acc f s l1, soup.primaryIds.find? runMatches = some acc ∧
          (fastqContribution env acc soup).run = .ok (f, l1) ∧
          submittedContribution env acc soup l1 = .ok (s, log) ∧
          v = f ++ s) ∧
    (∀ (env : Env) (acc : String) (soup : Soup) (x : String × String)
        (row : List (String × String)) (log : List Req),
        soup.xrefLinks.find? (fun e => e.1 = "ENA-FASTQ-FILES") = some x →
        ¬ 400 ≤ (env.urlText x.2).status →
        (env.urlText x.2).text ≠ "" →
        parse_tsv (env.urlText x.2).text = .ok [row] →
        (rowGetD row "fastq_ftp" "" = "" ∨ rowGetD row "fastq_md5" "" = "" ∨
          rowGetD row "fastq_bytes" "" = "") →
        fastqContribution env acc soup log = .ok ([], log ++ [Req.urlGet x.2])) ∧
    (∀ (env : Env) (acc : String) (soup : Soup) (x : String × String)
        (row : List (String × String)) (log : List Req),
        soup.xrefLinks.find? (fun e => e.1 = "ENA-SUBMITTED-FILES") = some x →
        ¬ 400 ≤ (env.urlText x.2).status →
        (env.urlText x.2).text ≠ "" →
        parse_tsv (env.urlText x.2).text = .ok [row] →
        strIn "BAM" (rowGetD row "submitted_format" "") = false →
        submittedContribution env acc soup log = .ok ([], log ++ [Req.urlGet x.2])) ∧
    (∀ (env : Env) (soup : Soup) (acc : String) (l1 log : List Req),
        soup.primaryIds.find? runMatches = some acc →
        fastqContribution env acc soup [] = .ok ([], l1) →
        submittedContribution env acc soup l1 = .ok ([], log) →
        (get_files_metadata_from_run env soup).run = .ok ([], log)) := by
  refine ⟨?_, ?_, ?_, ?_⟩
  · intro env soup v log h
    rw [run_def] at h
    unfold get_files_metadata_from_run at h
    cases hfind : soup.primaryIds.find? runMatches with
    | none =>
      rw [hfind] at h
      rw [bind_ok] at h
      obtain ⟨a, l0, ha, _⟩ := h
      exact absurd ha throw_not_ok
    | some t =>
      rw [hfind] at h
      try simp only [] at h
      rw [bind_ok] at h
      obtain ⟨a, l0, hacc, h⟩ := h
      rw [pure_ok] at hacc
      obtain ⟨rfl, rfl⟩ := Prod.mk.injEq .. ▸ hacc
      rw [bind_ok] at h
      obtain ⟨f, l1, hf, h⟩ := h
      rw [bind_ok] at h
      obtain ⟨s, l2, hs, h⟩ := h
      rw [pure_ok] at h
      obtain ⟨rfl, rfl⟩ := Prod.mk.injEq .. ▸ h
      exact ⟨_, f, s, l1, rfl, hf, hs, rfl⟩
  · intro env acc soup x row log hfind hst hne htsv hempty
    unfold fastqContribution
    rw [hfind]
    try simp only []
    rw [bind_ok]
    refine ⟨(env.urlText x.2).text, log ++ [Req.urlGet x.2],
      cachedGetText_ok.mpr ⟨hst, hne, rfl⟩, ?_⟩
    rw [bind_ok]
    refine ⟨[row], log ++ [Req.urlGet x.2], liftE_ok.mpr ⟨[row], htsv, rfl⟩, ?_⟩
    try simp only []
    have hb : (decide (rowGetD row "fastq_ftp" "" = "") ||
        decide (rowGetD row "fastq_md5" "" = "") ||
        decide (rowGetD row "fastq_bytes" "" = "")) = true := by
      rcases hempty with h | h | h <;> simp [h]
    rw [hb, if_pos rfl]
    rfl
  · intro env acc soup x row log hfind hst hne htsv hfmt
    unfold submittedContribution
    rw [hfind]
    try simp only []
    rw [bind_ok]
    refine ⟨(env.urlText x.2).text, log ++ [Req.urlGet x.2],
      cachedGetText_ok.mpr ⟨hst, hne, rfl⟩, ?_⟩
    rw [bind_ok]
    refine ⟨[row], log ++ [Req.urlGet x.2], liftE_ok.mpr ⟨[row], htsv, rfl⟩, ?_⟩
    try simp only []
    have hb : (decide (rowGetD row "submitted_ftp" "" = "") ||
        decide (rowGetD row "submitted_md5" "" = "") ||
        decide (rowGetD row "submitted_bytes" "" = "") ||
        !(strIn "BAM" (rowGetD row "submitted_format" ""))) = true := by
      simp [hfmt]
    rw [hb, if_pos rfl]
    rfl
  · intro env soup acc l1 log hfind hf hs
    rw [run_def]
    unfold get_files_metadata_from_run
    rw [hfind]
    try simp only []
    rw [bind_ok]
    refine ⟨acc, [], rfl, ?_⟩
    rw [bind_ok]
    refine ⟨[], l1, hf, ?_⟩
    rw [bind_ok]
    exact ⟨[], log, hs, rfl⟩

/-- Witness for claim C5: the two-contribution decomposition on the
double-manifest fixture, and the empty-field / non-BAM abandon paths plus
the successful empty manifest on the degenerate fixture. -/
theorem file_manifest_extraction_witness :
    (∃ acc f s l1, manifestSoup.primaryIds.find? runMatches = some acc ∧
        (fastqContribution manifestEnv acc manifestSoup).run = .ok (f, l1) ∧
        submittedContribution manifestEnv acc manifestSoup l1 =
          .ok (s, [Req.urlGet "fq", Req.urlGet "sb"]) ∧
        resolvedList (get_files_metadata_from_run manifestEnv manifestSoup) = f ++ s) ∧
    fastqContribution emptyManifestEnv "SRR8" emptyManifestSoup [] =
      .ok ([], [Req.urlGet "fq8"]) ∧
    submittedContribution emptyManifestEnv "SRR8" emptyManifestSoup [Req.urlGet "fq8"] =
      .ok ([], [Req.urlGet "fq8", Req.urlGet "sb8"]) ∧
    (get_files_metadata_from_run emptyManifestEnv emptyManifestSoup).run =
      .ok ([], [Req.urlGet "fq8", Req.urlGet "sb8"]) := by
  refine ⟨?_, ?_, ?_, ?_⟩
  · exact file_manifest_extraction.1 manifestEnv manifestSoup
      (resolvedList (get_files_metadata_from_run manifestEnv manifestSoup))
      [Req.urlGet "fq", Req.urlGet "sb"] (by rfl)
  · exact file_manifest_extraction.2.1 emptyManifestEnv "SRR8" emptyManifestSoup
      ("ENA-FASTQ-FILES", "fq8")
      [("fastq_ftp", ""), ("fastq_md5", "md"), ("fastq_bytes", "100")] []
      (by rfl) (by decide) (by decide) (by rfl) (Or.inl (by rfl))
  · exact file_manifest_extraction.2.2.1 emptyManifestEnv "SRR8" emptyManifestSoup
      ("ENA-SUBMITTED-FILES", "sb8")
      [("submitted_ftp", "h/SRR8.cram"), ("submitted_md5", "md"),
       ("submitted_bytes", "200"), ("submitted_format", "CRAM")] [Req.urlGet "fq8"]
      (by rfl) (by decide) (by decide) (by rfl) (by rfl)
  · exact file_manifest_extraction.2.2.2 emptyManifestEnv emptyManifestSoup "SRR8"
      [Req.urlGet "fq8"] [Req.urlGet "fq8", Req.urlGet "sb8"]
      (by rfl) (by rfl) (by rfl)

/-! ## Claim C6 -/

theorem runAccession_ok {soup : Soup} {log : List Req} {r : String × List Req}
    (h : runAccession soup log = .ok r) :
    soup.primaryIds.find? runMatches = some r.1 ∧ r.2 = log := by
  unfold runAccession at h
  cases hf : soup.primaryIds.find? runMatches with
  | none => rw [hf] at h; exact absurd h throw_not_ok
  | some t =>
    rw [hf] at h
    rw [pure_ok] at h
    subst h
    exact ⟨rfl, rfl⟩

/-- Claim C6 (amended): every successful run resolution returns a record
with all seven keys present; the accession matches the run pattern (and
is therefore non-empty), and `files` is a dict with exactly the four
origin buckets `ftp`/`aws`/`gcp`/`ncbi`, each bound to a list and never
`None`.  (The other string fields exist but may be empty — see the
counterexample.) -/
theorem run_depth_one_record :
    ∀ (env : Env) (acc : String) (v : Val) (log : List Req),
      (ffq_run env acc).run = .ok (v, log) →
      (∃ a, v.get? "accession" = some (Val.str a) ∧ runMatches a = true ∧ a ≠ "") ∧
      (∃ e, v.get? "experiment" = some (Val.str e)) ∧
      (∃ s, v.get? "study" = some s) ∧
      (∃ s, v.get? "sample" = some s) ∧
      (∃ t, v.get? "title" = some (Val.str t)) ∧
      (∃ d, v.get? "attributes" = some d) ∧
      (∃ ftp aws gcp ncbi, v.get? "files" =
        some (Val.dict [("ftp", Val.list ftp), ("aws", Val.list aws),
          ("gcp", Val.list gcp), ("ncbi", Val.list ncbi)])) := by
  intro env acc v log h
  rw [run_def] at h
  unfold ffq_run at h
  rw [bind_ok] at h
  obtain ⟨soup, l1, hx, h⟩ := h
  unfold parse_run at h
  rw [bind_ok] at h
  obtain ⟨accession, l2, hacc, h⟩ := h
  rw [bind_ok] at h
  obtain ⟨experiment, l3, -, h⟩ := h
  rw [bind_ok] at h
  obtain ⟨study, l4, -, h⟩ := h
  rw [bind_ok] at h
  obtain ⟨sample, l5, -, h⟩ := h
  rw [bind_ok] at h
  obtain ⟨title, l6, -, h⟩ := h
  try simp only [] at h
  rw [bind_ok] at h
  obtain ⟨ftp_files, l7, -, h⟩ := h
  rw [bind_ok] at h
  obtain ⟨alts, l8, -, h⟩ := h
  rw [bind_ok] at h
  obtain ⟨aws_links, l9, -, h⟩ := h
  rw [bind_ok] at h
  obtain ⟨aws_results, l10, -, h⟩ := h
  rw [bind_ok] at h
  obtain ⟨gcp_links, l11, -, h⟩ := h
  rw [bind_ok] at h
  obtain ⟨gcp_results, l12, -, h⟩ := h
  rw [bind_ok] at h
  obtain ⟨ncbi_links, l13, -, h⟩ := h
  rw [bind_ok] at h
  obtain ⟨ncbi_results, l14, -, h⟩ := h
  try simp only [] at h
  rw [pure_ok] at h
  obtain ⟨rfl, rfl⟩ := Prod.mk.injEq .. ▸ h
  obtain ⟨hfind, -⟩ := runAccession_ok hacc
  have hm : runMatches accession = true := List.find?_some hfind
  exact ⟨⟨accession, rfl, hm, runMatches_ne_empty hm⟩, ⟨experiment, rfl⟩,
    ⟨study, rfl⟩, ⟨sample, rfl⟩, ⟨title, rfl⟩, ⟨_, rfl⟩,
    ⟨ftp_files, aws_results, gcp_results, ncbi_results, rfl⟩⟩

/-- Witness for claim C6: the record shape on the concrete fixture run
`SRR1`. -/
theorem run_depth_one_record_witness :
    (∃ a, (resolvedVal (ffq_run resEnv "SRR1")).get? "accession" =
        some (Val.str a) ∧ runMatches a = true ∧ a ≠ "") ∧
    (∃ e, (resolvedVal (ffq_run resEnv "SRR1")).get? "experiment" =
        some (Val.str e)) ∧
    (∃ s, (resolvedVal (ffq_run resEnv "SRR1")).get? "study" = some s) ∧
    (∃ s, (resolvedVal (ffq_run resEnv "SRR1")).get? "sample" = some s) ∧
    (∃ t, (resolvedVal (ffq_run resEnv "SRR1")).get? "title" = some (Val.str t)) ∧
    (∃ d, (resolvedVal (ffq_run resEnv "SRR1")).get? "attributes" = some d) ∧
    (∃ ftp aws gcp ncbi, (resolvedVal (ffq_run resEnv "SRR1")).get? "files" =
        some (Val.dict [("ftp", Val.list ftp), ("aws", Val.list aws),
          ("gcp", Val.list gcp), ("ncbi", Val.list ncbi)])) :=
  run_depth_one_record resEnv "SRR1" (resolvedVal (ffq_run resEnv "SRR1"))
    (resolvedLog (ffq_run resEnv "SRR1")) (by rfl)

/-! ## Claim C7 -/

/-- Claim C7: during DOI resolution, converting N GEO ids to GSE
accessions either yields exactly N accessions — in which case each is
resolved and the tier returns one record per requested GEO id — or
raises the integrity-mismatch exception; it never silently continues
with a different count. -/
theorem geo_conversion_integrity :
    (∀ (env : Env) (geo_ids : List String) (res : List Val) (log : List Req),
        (doiGeoTier env geo_ids).run = .ok (res, log) →
        ∃ gses l1, (geo_ids_to_gses env geo_ids).run = .ok (gses, l1) ∧
          gses.length = geo_ids.length ∧ res.length = geo_ids.length) ∧
    (∀ (env : Env) (geo_ids : List String) (gses : List String) (l1 : List Req),
        (geo_ids_to_gses env geo_ids).run = .ok (gses, l1) →
        gses.length ≠ geo_ids.length →
        (doiGeoTier env geo_ids).run =
          .error (.exc "GEO accession count mismatch")) := by
  constructor
  · intro env geo_ids res log h
    rw [run_def] at h
    unfold doiGeoTier at h
    rw [bind_ok] at h
    obtain ⟨gses, l1, hg, h⟩ := h
    by_cases hlen : gses.length = geo_ids.length
    · rw [if_neg (by simpa using hlen)] at h
      exact ⟨gses, l1, hg, hlen, (mapML_ok_length h).trans hlen⟩
    · rw [if_pos hlen] at h
      exact absurd h throw_not_ok
  · intro env geo_ids gses l1 hg hlen
    rw [run_def]
    unfold doiGeoTier
    rw [run_def] at hg
    rw [bind_apply, hg]
    try simp only []
    rw [if_pos hlen]
    rfl

/-- Witness for claim C7: the single GEO id `700` converts to the single
series `GSE77` and the tier returns one record; the mismatch branch
raised on a two-id request backed by the same single-series response. -/
theorem geo_conversion_integrity_witness :
    (∃ gses l1, (geo_ids_to_gses geoEnv ["700"]).run = .ok (gses, l1) ∧
        gses.length = 1 ∧
        (resolvedList (doiGeoTier geoEnv ["700"])).length = 1) ∧
    (doiGeoTier geoEnv ["700", "701"]).run =
      .error (.exc "GEO accession count mismatch") :=
  ⟨geo_conversion_integrity.1 geoEnv ["700"]
      (resolvedList (doiGeoTier geoEnv ["700"]))
      (resolvedLog (doiGeoTier geoEnv ["700"])) (by rfl),
   geo_conversion_integrity.2 geoEnv ["700", "701"] [] [Req.gdsFetch ["700", "701"]]
      (by rfl) (by decide)⟩

/-! ## Claim C10 -/

theorem parse_fetch_fasta_no_server {alts : List Alt} {server : String}
    (hno : ∀ a ∈ alts, a.org ≠ some server) :
    parse_ncbi_fetch_fasta alts server = .error .indexError := by
  unfold parse_ncbi_fetch_fasta
  have hf : alts.filter (fun a => a.org = some server) = [] := by
    rw [List.filter_eq_nil_iff]
    intro a ha
    simp [hno a ha]
  try simp only []
  rw [hf]
  rfl

/-- Claim C10: when no `Alternatives` element of the fetch-fasta response
carries the requested server tag, extracting that server's links raises
`IndexError` (`links[0]` on an empty list); consequently a registry whose
fetch-fasta responses never carry an `AWS` tag makes every run resolution
abort rather than produce an empty `aws` bucket. -/
theorem missing_server_bucket_aborts :
    (∀ (alts : List Alt) (server : String),
        (∀ a ∈ alts, a.org ≠ some server) →
        parse_ncbi_fetch_fasta alts server = .error .indexError) ∧
    (∀ (env : Env) (acc : String),
        (∀ (a' db : String), ∀ alt ∈ (env.fetchFasta a' db).payload,
          alt.org ≠ some "AWS") →
        ∀ r, (ffq_run env acc).run ≠ .ok r) := by
  constructor
  · intro alts server hno
    exact parse_fetch_fasta_no_server hno
  · intro env acc hno r h
    obtain ⟨v, log⟩ := r
    rw [run_def] at h
    unfold ffq_run at h
    rw [bind_ok] at h
    obtain ⟨soup, l1, hx, h⟩ := h
    unfold parse_run at h
    rw [bind_ok] at h
    obtain ⟨accession, l2, hacc, h⟩ := h
    rw [bind_ok] at h
    obtain ⟨experiment, l3, -, h⟩ := h
    rw [bind_ok] at h
    obtain ⟨study, l4, -, h⟩ := h
    rw [bind_ok] at h
    obtain ⟨sample, l5, -, h⟩ := h
    rw [bind_ok] at h
    obtain ⟨title, l6, -, h⟩ := h
    try simp only [] at h
    rw [bind_ok] at h
    obtain ⟨ftp_files, l7, -, h⟩ := h
    rw [bind_ok] at h
    obtain ⟨alts, l8, halts, h⟩ := h
    rw [bind_ok] at h
    obtain ⟨aws_links, l9, haws, h⟩ := h
    rw [liftE_ok] at haws
    obtain ⟨aw, hpa, -⟩ := haws
    rw [ncbi_fetch_fasta_ok] at halts
    obtain ⟨-, -, halts⟩ := halts
    obtain ⟨rfl, rfl⟩ := Prod.mk.injEq .. ▸ halts
    rw [parse_fetch_fasta_no_server (hno accession "sra")] at hpa
    cases hpa

/-- Witness for claim C10: the fixture registry with no AWS-tagged
alternates aborts the resolution of `SRR7`, and its GCP-only alternate
list raises `IndexError` for the `AWS` server directly. -/
theorem missing_server_bucket_aborts_witness :
    parse_ncbi_fetch_fasta [{ org := some "GCP", url := some "g/SRR7.1" }] "AWS" =
      .error .indexError ∧
    (ffq_run noAwsEnv "SRR7").run ≠
      .ok (Val.dict [], [Req.enaXml "SRR7"]) :=
  ⟨missing_server_bucket_aborts.1 [{ org := some "GCP", url := some "g/SRR7.1" }]
      "AWS" (by decide),
   missing_server_bucket_aborts.2 noAwsEnv "SRR7"
      (by
        intro a' db alt halt
        revert halt
        unfold noAwsEnv
        try simp only []
        split
        · intro halt
          simp only [List.mem_singleton] at halt
          rw [halt]
          decide
        · intro halt
          cases halt)
      (Val.dict [], [Req.enaXml "SRR7"])⟩

/-! ## Claim C9 -/

theorem toUpper_digit {c : Char} (h : c.isDigit = true) : c.toUpper = c := by
  unfold Char.toUpper
  rw [if_neg]
  intro hl
  simp [Char.isDigit] at h
  simp [Char.isLower] at hl
  obtain ⟨h1, h2⟩ := h
  obtain ⟨h3, h4⟩ := hl
  have e2 : c ≤ '9' → c.toNat ≤ 57 := fun hh => hh
  have e3 : 'a' ≤ c → 97 ≤ c.toNat := fun hh => hh
  exact absurd (e3 h3) (by have := e2 h2; omega)

theorem findPrefixCapture_all_digits {l : List Char}
    (h : ∀ c ∈ l, c.isDigit = true) : findPrefixCapture l = none := by
  induction l with
  | nil => rfl
  | cons c rest ih =>
    unfold findPrefixCapture
    rw [if_pos (h c (List.mem_cons_self c rest))]
    exact ih (fun x hx => h x (List.mem_cons_of_mem c hx))

/-- Claim C9: an input containing no non-digit character (an all-digit
string or the empty string) makes the accession classifier raise
`IndexError` while extracting the leading prefix, instead of returning a
record marked invalid; conversely, any input it does classify contains at
least one non-digit character. -/
theorem all_digit_input_raises_index_error :
    (∀ (s : String) (sts : List String),
        (∀ c ∈ s.data, c.isDigit = true) →
        validate_accessions [s] sts = .error .indexError) ∧
    (∀ (s : String) (sts : List String) (res : List Val),
        validate_accessions [s] sts = .ok res →
        ∃ c ∈ s.data, c.isDigit = false) := by
  have key : ∀ (s : String) (sts : List String),
      (∀ c ∈ s.data, c.isDigit = true) →
      validate_accessions [s] sts = .error .indexError := by
    intro s sts hdig
    have hup : ∀ c ∈ (pyUpper s).data, c.isDigit = true := by
      intro c hc
      simp [pyUpper] at hc
      obtain ⟨c0, hc0, rfl⟩ := hc
      rw [toUpper_digit (hdig c0 hc0)]
      exact hdig c0 hc0
    have hnone : findPrefixCapture (pyUpper s).data = none :=
      findPrefixCapture_all_digits hup
    unfold validate_accessions
    rw [List.mapM_cons]
    try simp only []
    rw [hnone]
    rfl
  refine ⟨key, ?_⟩
  intro s sts res h
  by_cases hall : ∀ c ∈ s.data, c.isDigit = true
  · rw [key s sts hall] at h
    cases h
  · push_neg at hall
    obtain ⟨c, hc, hnd⟩ := hall
    exact ⟨c, hc, by simpa using hnd⟩

/-- Witness for claim C9: the all-digit input `123` raises `IndexError`,
and the classified input `SRR1` contains a non-digit character. -/
theorem all_digit_input_raises_index_error_witness :
    validate_accessions ["123"] ["SRR"] = .error .indexError ∧
    ∃ c ∈ ("SRR1" : String).data, c.isDigit = false :=
  ⟨all_digit_input_raises_index_error.1 "123" ["SRR"] (by decide),
   all_digit_input_raises_index_error.2 "SRR1" ["SRR"]
     [Val.dict [("accession", .str "SRR1"), ("prefix", .str "SRR"),
       ("valid", .bool true), ("error", .pynone)]] (by rfl)⟩

/-! ## Claim C8 -/


theorem digitChar_ofNat {n : Nat} (h1 : 48 ≤ n) (h2 : n ≤ 57) :
    digitChar (n - 48) = Char.ofNat n := by
  interval_cases n <;> decide

theorem digitChar_digitVal {c : Char} (h : c.isDigit = true) :
    digitChar (digitVal c) = c := by
  have e1 : '0' ≤ c → 48 ≤ c.toNat := fun hh => hh
  have e2 : c ≤ '9' → c.toNat ≤ 57 := fun hh => hh
  simp [Char.isDigit] at h
  have e := digitChar_ofNat (e1 h.1) (e2 h.2)
  unfold digitVal
  rw [e, Char.ofNat_toNat]

theorem digitVal_lt_10 {c : Char} (h : c.isDigit = true) : digitVal c < 10 := by
  have e2 : c ≤ '9' → c.toNat ≤ 57 := fun hh => hh
  simp [Char.isDigit] at h
  have := e2 h.2
  unfold digitVal
  omega

theorem digitVal_pos {c : Char} (h : c.isDigit = true) (h0 : c ≠ '0') :
    1 ≤ digitVal c := by
  have e1 : '0' ≤ c → 48 ≤ c.toNat := fun hh => hh
  simp [Char.isDigit] at h
  have h48 := e1 h.1
  have hne : c.toNat ≠ 48 := by
    intro he
    apply h0
    rw [← Char.ofNat_toNat c, he]
  unfold digitVal
  omega

theorem parseDigits_foldl_general : ∀ (l : List Char) (a : Nat),
    l.foldl (fun a c => a * 10 + digitVal c) a = a * 10 ^ l.length + parseDigits l := by
  intro l
  induction l with
  | nil => intro a; simp [parseDigits]
  | cons c rest ih =>
    intro a
    show List.foldl _ (a * 10 + digitVal c) rest = _
    rw [ih (a * 10 + digitVal c)]
    have h2 : parseDigits (c :: rest) = digitVal c * 10 ^ rest.length + parseDigits rest := by
      show List.foldl _ (0 * 10 + digitVal c) rest = _
      rw [ih (0 * 10 + digitVal c)]
      ring_nf
    rw [h2]
    simp only [List.length_cons]
    ring

theorem parseDigits_append (l1 l2 : List Char) :
    parseDigits (l1 ++ l2) = parseDigits l1 * 10 ^ l2.length + parseDigits l2 := by
  unfold parseDigits
  rw [List.foldl_append]
  rw [parseDigits_foldl_general]
  rfl

theorem parseDigits_replicate_zero (k : Nat) :
    parseDigits (List.replicate k '0') = 0 := by
  induction k with
  | zero => rfl
  | succ k ih => exact ih

theorem parseDigits_pos {c : Char} {rest : List Char} (h : c.isDigit = true)
    (h0 : c ≠ '0') : 1 ≤ parseDigits (c :: rest) := by
  have happ := parseDigits_append [c] rest
  simp only [List.singleton_append] at happ
  rw [happ]
  have h1 : parseDigits [c] = digitVal c := by
    show 0 * 10 + digitVal c = _
    omega
  rw [h1]
  have h2 := digitVal_pos h h0
  have h3 : 0 < 10 ^ rest.length := Nat.pos_pow_of_pos _ (by omega)
  have := Nat.mul_pos (by omega : 0 < digitVal c) h3
  omega

theorem natRepr_roundtrip : ∀ (t : List Char), t ≠ [] →
    (∀ c ∈ t, c.isDigit = true) → t.head? ≠ some '0' →
    natReprChars (parseDigits t) = t := by
  intro t
  induction t using List.reverseRecOn with
  | nil => intro h; exact absurd rfl h
  | append_singleton l c ih =>
    intro hne hdig hh0
    have hc : c.isDigit = true := hdig c (by simp)
    by_cases hl : l = []
    · subst hl
      have hv : parseDigits [c] = digitVal c := by
        show 0 * 10 + digitVal c = _
        omega
      simp only [List.nil_append]
      rw [hv]
      unfold natReprChars
      rw [dif_pos (digitVal_lt_10 hc)]
      rw [digitChar_digitVal hc]
    · have hdigl : ∀ x ∈ l, x.isDigit = true := fun x hx => hdig x (by simp [hx])
      have hh0l : l.head? ≠ some '0' := by
        intro he
        apply hh0
        rw [List.head?_append]
        rw [he]
        rfl
      obtain ⟨c0, l0, rfl⟩ := List.exists_cons_of_ne_nil hl
      have hc0 : c0 ≠ '0' := by
        intro he
        exact hh0l (by rw [he]; rfl)
      have hpl : 1 ≤ parseDigits (c0 :: l0) :=
        parseDigits_pos (hdigl c0 (by simp)) hc0
      have happ := parseDigits_append (c0 :: l0) [c]
      have hsc : parseDigits [c] = digitVal c := by
        show 0 * 10 + digitVal c = _
        omega
      rw [hsc] at happ
      simp only [List.length_singleton, pow_one] at happ
      rw [happ]
      have hdc := digitVal_lt_10 hc
      unfold natReprChars
      rw [dif_neg (by omega)]
      have hdiv : (parseDigits (c0 :: l0) * 10 + digitVal c) / 10 =
          parseDigits (c0 :: l0) := by omega
      have hmod : (parseDigits (c0 :: l0) * 10 + digitVal c) % 10 = digitVal c := by
        omega
      rw [hdiv, hmod, digitChar_digitVal hc, ih hl hdigl hh0l]

theorem dropWhile_head?_not {α : Type} (p : α → Bool) : ∀ (l : List α) (a : α),
    (l.dropWhile p).head? = some a → p a = false := by
  intro l
  induction l with
  | nil => intro a h; cases h
  | cons c rest ih =>
    intro a h
    rw [List.dropWhile_cons] at h
    split at h
    · exact ih a h
    · rename_i hp
      simp only [List.head?_cons, Option.some.injEq] at h
      subst h
      simpa using hp

theorem zfill_parse {s : List Char} (hne : s ≠ [])
    (hdig : ∀ c ∈ s, c.isDigit = true) :
    zfill (natReprChars (parseDigits s)) s.length = s := by
  have hsplit : s.takeWhile (fun c => c = '0') ++ s.dropWhile (fun c => c = '0') = s :=
    List.takeWhile_append_dropWhile (fun c => decide (c = '0')) s
  have hzrep : s.takeWhile (fun c => c = '0') =
      List.replicate (s.takeWhile (fun c => c = '0')).length '0' := by
    apply List.eq_replicate_length.mpr
    intro b hb
    have := List.mem_takeWhile_imp hb
    exact of_decide_eq_true this
  by_cases htnil : s.dropWhile (fun c => c = '0') = []
  · have hlen : (s.takeWhile (fun c => c = '0')).length = s.length := by
      conv_rhs => rw [← hsplit]
      rw [htnil]
      simp
    have hs : s = List.replicate s.length '0' := by
      conv_lhs => rw [← hsplit]
      rw [htnil, List.append_nil, hzrep, hlen]
    have h1 : 1 ≤ s.length := List.length_pos.mpr hne
    rw [hs, parseDigits_replicate_zero]
    have h0 : natReprChars 0 = ['0'] := by unfold natReprChars; rfl
    rw [h0]
    unfold zfill
    simp only [List.length_replicate, List.length_singleton]
    have : List.replicate s.length '0' =
        List.replicate (s.length - 1) '0' ++ ['0'] := by
      conv_lhs => rw [show s.length = (s.length - 1) + 1 by omega]
      exact List.replicate_succ' ..
    rw [this]
  · have hh : (s.dropWhile (fun c => c = '0')).head? ≠ some '0' := by
      intro hcon
      have := dropWhile_head?_not _ s '0' hcon
      simp at this
    have hdt : ∀ c ∈ s.dropWhile (fun c => c = '0'), c.isDigit = true :=
      fun c hc => hdig c ((List.dropWhile_sublist _).subset hc)
    have hcan := natRepr_roundtrip _ htnil hdt hh
    have hps : parseDigits s = parseDigits (s.dropWhile (fun c => c = '0')) := by
      conv_lhs => rw [← hsplit]
      rw [parseDigits_append]
      conv_lhs => rw [hzrep, parseDigits_replicate_zero]
      omega
    rw [hps, hcan]
    unfold zfill
    conv_rhs => rw [← hsplit]
    congr 1
    have hlen : s.length = (s.takeWhile (fun c => c = '0')).length +
        (s.dropWhile (fun c => c = '0')).length := by
      rw [← List.length_append, hsplit]
    rw [hlen]
    conv_rhs => rw [hzrep]
    congr 1
    omega

theorem splitOnChar_no_sep (sep : Char) : ∀ (l : List Char),
    (∀ c ∈ l, c ≠ sep) → splitOnChar sep l = [l] := by
  intro l
  induction l with
  | nil => intro _; rfl
  | cons c rest ih =>
    intro h
    unfold splitOnChar
    rw [if_neg (h c (by simp))]
    rw [ih (fun x hx => h x (by simp [hx]))]

theorem splitOnChar_append_sep (sep : Char) : ∀ (l1 l2 : List Char),
    (∀ c ∈ l1, c ≠ sep) →
    splitOnChar sep (l1 ++ sep :: l2) = l1 :: splitOnChar sep l2 := by
  intro l1 l2
  induction l1 with
  | nil =>
    intro _
    show splitOnChar sep (sep :: l2) = _
    rw [splitOnChar]
    try simp only []
    simp only [if_true]
  | cons c rest ih =>
    intro h
    show splitOnChar sep (c :: (rest ++ sep :: l2)) = _
    rw [splitOnChar]
    try simp only []
    rw [if_neg (h c (by simp))]
    rw [ih (fun x hx => h x (by simp [hx]))]

theorem takeWhile_append_all {α : Type} (p : α → Bool) : ∀ (l1 l2 : List α),
    (∀ a ∈ l1, p a = true) → l2.takeWhile p = [] →
    (l1 ++ l2).takeWhile p = l1 := by
  intro l1 l2
  induction l1 with
  | nil => intro _ h2; simpa using h2
  | cons a l ih =>
    intro h1 h2
    rw [List.cons_append, List.takeWhile_cons, if_pos (h1 a (by simp))]
    rw [ih (fun x hx => h1 x (by simp [hx])) h2]

theorem range'_getLast? : ∀ (k m : Nat), 1 ≤ k →
    (List.range' m k).getLast? = some (m + k - 1) := by
  intro k
  induction k with
  | zero => intro m h; omega
  | succ j ih =>
    intro m _
    rw [List.range'_succ]
    cases j with
    | zero => rfl
    | succ j' =>
      rw [List.range'_succ, List.getLast?_cons_cons, ← List.range'_succ]
      rw [ih (m + 1) (by omega)]
      congr 1
      omega

theorem digit_ne_dash {c : Char} (h : c.isDigit = true) : c ≠ '-' := by
  intro he
  subst he
  simp [Char.isDigit] at h

/-- Claim C8: for a well-formed accession range `B m - B n` (same
non-digit base `B`, all-digit suffixes of equal width, `m ≤ n`), range
expansion returns the `n - m + 1` sequential accessions from the first
bound to the last: the first and last elements of the expanded list equal
the original bounds (round-trip, preserving leading zeros), and every
element's numeric suffix is zero-padded to the width of the first bound's
suffix. -/
theorem parse_range_roundtrip :
    ∀ (B mstr nstr : List Char) (m n : Nat),
      (∀ c ∈ B, c.isDigit = false ∧ c ≠ '-') →
      mstr ≠ [] → (∀ c ∈ mstr, c.isDigit = true) →
      nstr ≠ [] → (∀ c ∈ nstr, c.isDigit = true) →
      mstr.length = nstr.length →
      m = parseDigits mstr → n = parseDigits nstr → m ≤ n →
      ∃ ids, parse_range (String.mk (B ++ mstr ++ ['-'] ++ B ++ nstr)) = .ok ids ∧
        ids.length = n + 1 - m ∧
        ids.head? = some (String.mk (B ++ mstr)) ∧
        ids.getLast? = some (String.mk (B ++ nstr)) ∧
        ids = (List.range' m (n + 1 - m)).map
          (fun i => String.mk (B ++ zfill (natReprChars i) mstr.length)) := by
  intro B mstr nstr m n hB hmne hmd hnne hnd hw hmv hnv hmn
  have hsplit : splitOnChar '-' (B ++ mstr ++ ['-'] ++ B ++ nstr) =
      [B ++ mstr, B ++ nstr] := by
    have e1 : B ++ mstr ++ ['-'] ++ B ++ nstr = (B ++ mstr) ++ '-' :: (B ++ nstr) := by
      simp
    rw [e1]
    rw [splitOnChar_append_sep '-' (B ++ mstr) (B ++ nstr) ?hno1]
    case hno1 =>
      intro c hc
      rcases List.mem_append.mp hc with h | h
      · exact (hB c h).2
      · exact digit_ne_dash (hmd c h)
    rw [splitOnChar_no_sep '-' (B ++ nstr) ?hno2]
    case hno2 =>
      intro c hc
      rcases List.mem_append.mp hc with h | h
      · exact (hB c h).2
      · exact digit_ne_dash (hnd c h)
  obtain ⟨c0, m0, rfl⟩ := List.exists_cons_of_ne_nil hmne
  have hany : (B ++ c0 :: m0).any Char.isDigit = true := by
    rw [List.any_append]
    have : (c0 :: m0).any Char.isDigit = true :=
      List.any_eq_true.mpr ⟨c0, by simp, hmd c0 (by simp)⟩
    rw [this, Bool.or_true]
  have htake : (B ++ c0 :: m0).takeWhile (fun c => !c.isDigit) = B := by
    apply takeWhile_append_all
    · intro a ha
      rw [(hB a ha).1]
      rfl
    · rw [List.takeWhile_cons, if_neg]
      rw [hmd c0 (by simp)]
      simp
  have hdropm : (B ++ c0 :: m0).drop B.length = c0 :: m0 := List.drop_left ..
  have hdropn : (B ++ nstr).drop B.length = nstr := List.drop_left ..
  have hintm : pyIntChars (c0 :: m0) = some m := by
    unfold pyIntChars
    rw [if_pos ⟨by simp, List.all_eq_true.mpr (fun c hc => hmd c hc)⟩, hmv]
  have hintn : pyIntChars nstr = some n := by
    unfold pyIntChars
    rw [if_pos ⟨hnne, List.all_eq_true.mpr (fun c hc => hnd c hc)⟩, hnv]
  have hwidth : (B ++ c0 :: m0).length - B.length = (c0 :: m0).length := by
    rw [List.length_append]
    omega
  unfold parse_range
  rw [show (String.mk (B ++ c0 :: m0 ++ ['-'] ++ B ++ nstr)).data =
      B ++ c0 :: m0 ++ ['-'] ++ B ++ nstr from rfl]
  rw [hsplit]
  try simp only []
  rw [if_pos hany]
  try simp only []
  rw [htake]
  try simp only []
  rw [hdropm, hdropn, hintm, hintn]
  try simp only []
  rw [hwidth]
  refine ⟨_, rfl, ?_, ?_, ?_, rfl⟩
  · rw [List.length_map, List.length_range']
  · rw [List.head?_map]
    have hk : n + 1 - m = (n - m) + 1 := by omega
    rw [hk, List.range'_succ]
    simp only [List.head?_cons]
    show some (String.mk (B ++ zfill (natReprChars m) (c0 :: m0).length)) =
      some (String.mk (B ++ c0 :: m0))
    rw [hmv, zfill_parse (by simp) hmd]
  · rw [List.getLast?_map]
    rw [range'_getLast? (n + 1 - m) m (by omega)]
    show some (String.mk (B ++ zfill (natReprChars (m + (n + 1 - m) - 1)) (c0 :: m0).length)) =
      some (String.mk (B ++ nstr))
    have he : m + (n + 1 - m) - 1 = n := by omega
    rw [he, hw, hnv, zfill_parse hnne hnd]

/-- Witness for claim C8: `SRR01-SRR05` expands to five accessions whose
first and last round-trip the bounds with their leading zeros. -/
theorem parse_range_roundtrip_witness :
    ∃ ids, parse_range (String.mk (['S','R','R'] ++ ['0','1'] ++ ['-'] ++
        ['S','R','R'] ++ ['0','5'])) = .ok ids ∧
      ids.length = 5 + 1 - 1 ∧
      ids.head? = some (String.mk (['S','R','R'] ++ ['0','1'])) ∧
      ids.getLast? = some (String.mk (['S','R','R'] ++ ['0','5'])) ∧
      ids = (List.range' 1 (5 + 1 - 1)).map
        (fun i => String.mk (['S','R','R'] ++
          zfill (natReprChars i) (['0','1'] : List Char).length)) :=
  parse_range_roundtrip ['S','R','R'] ['0','1'] ['0','5'] 1 5
    (by decide) (by decide) (by decide) (by decide) (by decide)
    (by decide) (by decide) (by decide) (by decide)
